import Mathlib

/-!
Shallow embedding of the medinn backend (Django) data model and the cart,
product, account, profile-address and product-image operations, together
with theorems checking the natural-language specification against it.

Conventions of the embedding:
* `Decimal(10,2)` money amounts are modelled as `Int` values in hundredths.
* Database tables are `List`s of records; a primary key is `Option Nat`
  (`none` before the first save, as in Django).
* A request handler wrapped in `transaction.atomic()` is a function
  `DB → Except CartError DB`: an `.error` result means the transaction
  rolled back and the database is unchanged.
* Timestamps (`timezone.now()`) are passed in as a `Nat` parameter.
-/

namespace Medinn

/-! ## products/models.py : Product -/

structure Product where
  id : Nat
  sellerId : Nat
  price : Int
  stock : Nat
  lowStockThreshold : Nat
  is_active : Bool
  is_deleted : Bool
  deleted_at : Option Nat
  updated_at : Nat
deriving DecidableEq

/-- `Product.save`: auto-deactivate if out of stock, then persist the
row; the `auto_now` column `updated_at` is stamped with the current
time on every save. -/
def Product.applySave (p : Product) (now : Nat) : Product :=
  if p.stock = 0 then { p with is_active := false, updated_at := now }
  else { p with updated_at := now }

/-- `Product.is_available` property. -/
def Product.is_available (p : Product) : Bool :=
  p.is_active && !p.is_deleted && decide (0 < p.stock)

/-- `Product.is_low_stock` property. -/
def Product.is_low_stock (p : Product) : Bool :=
  decide (0 < p.stock) && decide (p.stock ≤ p.lowStockThreshold)

/-! ## carts/models.py : Cart, CartItem, CartAuditLog -/

structure Cart where
  id : Nat
  userId : Nat
deriving DecidableEq

structure CartItem where
  pk : Option Nat
  cartId : Nat
  productId : Nat
  quantity : Nat
  price_at_addition : Int
deriving DecidableEq

def MAX_QUANTITY_PER_ITEM : Nat := 99

/-- `CartItem.total_price`: total for this item using the snapshot price. -/
def CartItem.total_price (it : CartItem) : Int :=
  it.price_at_addition * it.quantity

inductive AuditAction where
  | ADD
  | UPDATE
  | REMOVE
  | CLEAR
deriving DecidableEq

inductive AuditChanges where
  | addInfo (quantity : Nat) (price : Int)
  | signalUpdate (oldQuantity newQuantity : Nat)
  | viewUpdate (quantity : Nat)
  | removeInfo (quantity : Nat) (price : Int)
  | clearInfo (itemsRemoved : Nat)
deriving DecidableEq

structure CartAuditLog where
  cartId : Nat
  userId : Nat
  action : AuditAction
  productId : Option Nat
  changes : AuditChanges
deriving DecidableEq

/-- The distinct validation / lookup errors the cart endpoints produce.
Each constructor corresponds to one error message in the source. -/
inductive CartError where
  | quantityMin
  | maxQuantity
  | productNotFound
  | notAvailable
  | stockExceeded (available : Nat)
  | ownProduct
  | maxQuantityAdd
  | stockExceededAdd (available : Nat)
  | cartNotFound
  | itemNotFound
  | cartEmpty
deriving DecidableEq

/-- `CartItem.clean`, with the checks in source order: availability,
own-product, stock, max-quantity. -/
def CartItem.clean (item : CartItem) (cartUser : Nat) (product : Product) :
    Except CartError Unit :=
  if !product.is_available then .error .notAvailable
  else if cartUser = product.sellerId then .error .ownProduct
  else if product.stock < item.quantity then .error (.stockExceeded product.stock)
  else if MAX_QUANTITY_PER_ITEM < item.quantity then .error .maxQuantity
  else .ok ()

/-! ## accounts/models.py : User, AuditLog -/

structure User where
  id : Nat
  email : String
  username : String
  first_name : String
  last_name : String
  password : String
  is_active : Bool
  is_staff : Bool
  is_seller : Bool
  email_verified : Bool
  is_deleted : Bool
  date_joined : Nat
  deleted_at : Option Nat
deriving DecidableEq

/-- `User.soft_delete`: mark the account deleted and inactive, stamp the
time, and save. -/
def User.softDelete (u : User) (now : Nat) : User :=
  { u with is_deleted := true, is_active := false, deleted_at := some now }

inductive AccountEvent where
  | account_deleted
deriving DecidableEq

structure AccountAuditLog where
  userId : Option Nat
  event : AccountEvent
deriving DecidableEq

inductive ProductLogAction where
  | CREATE
  | UPDATE
  | DELETE
  | RESTORE
  | STOCK_CHANGE
deriving DecidableEq

structure ProductAuditLog where
  productId : Nat
  userId : Option Nat
  action : ProductLogAction
deriving DecidableEq

/-! ## The database state shared by the request handlers -/

structure DB where
  users : List User
  products : List Product
  carts : List Cart
  items : List CartItem
  logs : List CartAuditLog
  accountLogs : List AccountAuditLog
  productLogs : List ProductAuditLog
deriving DecidableEq

/-- `Cart.subtotal`: running sum of `total_price` over the cart's items,
starting from `Decimal(0.00)`. -/
def Cart.subtotal (db : DB) (cartId : Nat) : Int :=
  (db.items.filter (fun i => i.cartId == cartId)).foldl
    (fun acc it => acc + it.total_price) 0

/-- `Cart.total_items`: sum of quantities over the cart's items. -/
def Cart.total_items (db : DB) (cartId : Nat) : Nat :=
  (db.items.filter (fun i => i.cartId == cartId)).foldl
    (fun acc it => acc + it.quantity) 0

def mkFreshCartId (db : DB) : Nat :=
  db.carts.foldr (fun c acc => max c.id acc) 0 + 1

def mkFreshItemPk (db : DB) : Nat :=
  db.items.foldr (fun i acc => max (i.pk.getD 0) acc) 0 + 1

/-- `Cart.objects.get_or_create(user=request.user)`. -/
def getOrCreateCart (db : DB) (userId : Nat) : Cart × DB :=
  match db.carts.find? (fun c => c.userId == userId) with
  | some c => (c, db)
  | none =>
      let c : Cart := ⟨mkFreshCartId db, userId⟩
      (c, { db with carts := db.carts ++ [c] })

/-- `CartItem.save()` together with the `pre_save`/`post_save` signals
(`track_quantity_changes`, `log_cart_item_changes`): snapshot the product
price on creation, run `clean`, persist, and append the ADD / UPDATE
audit-log rows the signals create. -/
def saveCartItem (db : DB) (item : CartItem) (cartUser : Nat)
    (product : Product) : Except CartError (CartItem × DB) :=
  let item1 := if item.pk = none
    then { item with price_at_addition := product.price } else item
  match CartItem.clean item1 cartUser product with
  | .error e => .error e
  | .ok _ =>
    match item1.pk with
    | none =>
        let saved := { item1 with pk := some (mkFreshItemPk db) }
        let db1 := { db with items := db.items ++ [saved] }
        let db2 := { db1 with logs := db1.logs ++
          [⟨saved.cartId, cartUser, .ADD, some saved.productId,
            .addInfo saved.quantity saved.price_at_addition⟩] }
        .ok (saved, db2)
    | some pk =>
        let oldQ? := (db.items.find? (fun i => i.pk == some pk)).map
          (fun i => i.quantity)
        let newItems := db.items.map
          (fun i => if i.pk == some pk then item1 else i)
        let db1 := { db with items := newItems }
        let db2 := match oldQ? with
          | some oldQ =>
              if oldQ ≠ item1.quantity then
                { db1 with logs := db1.logs ++
                  [⟨item1.cartId, cartUser, .UPDATE, some item1.productId,
                    .signalUpdate oldQ item1.quantity⟩] }
              else db1
          | none => db1
        .ok (item1, db2)

/-- `AddToCartSerializer` validation: the `product_id` field validator,
the `quantity` field bounds, then cross-field `validate`. -/
def validateAddToCart (db : DB) (userId pid q : Nat) :
    Except CartError Unit :=
  match db.products.find?
      (fun p => p.id == pid && p.is_active && !p.is_deleted) with
  | none => .error .productNotFound
  | some product =>
    if !product.is_available then .error .notAvailable
    else if q < 1 then .error .quantityMin
    else if MAX_QUANTITY_PER_ITEM < q then .error .maxQuantity
    else
      match db.products.find? (fun p => p.id == pid) with
      | none => .ok ()
      | some p2 =>
          if p2.stock < q then .error (.stockExceeded p2.stock)
          else if userId = p2.sellerId then .error .ownProduct
          else .ok ()

/-- `AddToCartView.post`: serializer validation, then inside
`transaction.atomic()` get-or-create the cart, fetch the product, and
either create the cart item (with snapshot price) or add to the existing
quantity after the max-limit and stock checks. -/
def addToCart (db0 : DB) (userId pid q : Nat) : Except CartError DB :=
  match validateAddToCart db0 userId pid q with
  | .error e => .error e
  | .ok _ =>
    let cdb := getOrCreateCart db0 userId
    let cart := cdb.1
    let db := cdb.2
    match db.products.find?
        (fun p => p.id == pid && p.is_active && !p.is_deleted) with
    | none => .error .productNotFound
    | some product =>
      match db.items.find?
          (fun i => i.cartId == cart.id && i.productId == pid) with
      | none =>
          let fresh : CartItem := ⟨none, cart.id, pid, q, product.price⟩
          match saveCartItem db fresh userId product with
          | .error e => .error e
          | .ok r => .ok r.2
      | some item =>
          let newQ := item.quantity + q
          if MAX_QUANTITY_PER_ITEM < newQ then .error .maxQuantityAdd
          else if product.stock < newQ then
            .error (.stockExceededAdd product.stock)
          else
            match saveCartItem db { item with quantity := newQ }
                userId product with
            | .error e => .error e
            | .ok r => .ok r.2

/-- `UpdateCartItemSerializer` validation: `product_id` must exist,
`quantity` within `0..99`, and for a nonzero quantity at most the stock. -/
def validateUpdateCartItem (db : DB) (pid q : Nat) :
    Except CartError Unit :=
  match db.products.find? (fun p => p.id == pid) with
  | none => .error .productNotFound
  | some p =>
      if MAX_QUANTITY_PER_ITEM < q then .error .maxQuantity
      else if 0 < q && p.stock < q then .error (.stockExceeded p.stock)
      else .ok ()

/-- `UpdateCartItemView.patch`: serializer validation, then inside
`transaction.atomic()` fetch the cart and the item, set the quantity,
save (running `clean` and the signals), and append the view's own
UPDATE audit-log row. -/
def updateCartItem (db0 : DB) (userId pid q : Nat) :
    Except CartError DB :=
  match validateUpdateCartItem db0 pid q with
  | .error e => .error e
  | .ok _ =>
    match db0.carts.find? (fun c => c.userId == userId) with
    | none => .error .cartNotFound
    | some cart =>
      match db0.items.find?
          (fun i => i.cartId == cart.id && i.productId == pid) with
      | none => .error .itemNotFound
      | some item =>
        match db0.products.find? (fun p => p.id == pid) with
        | none => .error .productNotFound
        | some product =>
          match saveCartItem db0 { item with quantity := q }
              userId product with
          | .error e => .error e
          | .ok r =>
              .ok { r.2 with logs := r.2.logs ++
                [⟨cart.id, userId, .UPDATE, some pid, .viewUpdate q⟩] }

/-- `RemoveFromCartView.delete`: fetch the cart and the item, delete the
row; the `post_delete` signal appends a REMOVE audit-log row. -/
def removeFromCart (db0 : DB) (userId pid : Nat) : Except CartError DB :=
  match db0.products.find? (fun p => p.id == pid) with
  | none => .error .productNotFound
  | some _ =>
    match db0.carts.find? (fun c => c.userId == userId) with
    | none => .error .cartNotFound
    | some cart =>
      match db0.items.find?
          (fun i => i.cartId == cart.id && i.productId == pid) with
      | none => .error .itemNotFound
      | some item =>
          let remaining := db0.items.filter (fun i => !(i.pk == item.pk))
          let db1 := { db0 with items := remaining }
          let entry : CartAuditLog :=
            ⟨cart.id, userId, .REMOVE, some item.productId,
              .removeInfo item.quantity item.price_at_addition⟩
          .ok { db1 with logs := db1.logs ++ [entry] }

/-- `ClearCartView.delete`: fetch the cart, reject an empty cart, delete
every item (each deletion fires the REMOVE-logging `post_delete`
signal), then append the view's CLEAR audit-log row. -/
def clearCart (db0 : DB) (userId : Nat) : Except CartError DB :=
  match db0.carts.find? (fun c => c.userId == userId) with
  | none => .error .cartNotFound
  | some cart =>
    let cartItems := db0.items.filter (fun i => i.cartId == cart.id)
    if cartItems.length = 0 then .error .cartEmpty
    else
      let remaining := db0.items.filter (fun i => !(i.cartId == cart.id))
      let db1 := { db0 with items := remaining }
      let removeEntries : List CartAuditLog := cartItems.map
        (fun it => ⟨cart.id, userId, .REMOVE, some it.productId,
          .removeInfo it.quantity it.price_at_addition⟩)
      let db2 := { db1 with logs := db1.logs ++ removeEntries }
      let clearEntry : CartAuditLog :=
        ⟨cart.id, userId, .CLEAR, none, .clearInfo cartItems.length⟩
      .ok { db2 with logs := db2.logs ++ [clearEntry] }

/-- A product edit that changes the price and saves the row, as in
`ProductViewSet.update` with `ProductWriteSerializer` (`Product.save`
runs, so the zero-stock auto-deactivation applies). -/
def updateProductPrice (db : DB) (pid : Nat) (newPrice : Int)
    (now : Nat) : DB :=
  let newProducts := db.products.map (fun p =>
    if p.id == pid then Product.applySave { p with price := newPrice } now
    else p)
  { db with products := newProducts }

inductive AccountError where
  | passwordRequired
  | userNotFound
  | invalidPassword
deriving DecidableEq

/-- `DeleteAccountView.post`: require and verify the password, call
`user.soft_delete()`, and append an `account_deleted` audit event. -/
def deleteAccount (db : DB) (userId : Nat) (password : String)
    (now : Nat) : Except AccountError DB :=
  if password = "" then .error .passwordRequired
  else
    match db.users.find? (fun u => u.id == userId) with
    | none => .error .userNotFound
    | some u =>
      if u.password ≠ password then .error .invalidPassword
      else
        let newUsers := db.users.map
          (fun v => if v.id == userId then User.softDelete v now else v)
        let db1 := { db with users := newUsers }
        let entry : AccountAuditLog := ⟨some userId, .account_deleted⟩
        .ok { db1 with accountLogs := db1.accountLogs ++ [entry] }

inductive ProductError where
  | notFoundOrDeleted
  | forbidden
deriving DecidableEq

/-- `ProductViewSet.destroy`: `get_object` over the queryset filtered to
`is_deleted=False` and `is_active=True`, the own-product permission
check, then the soft delete (`is_deleted`, `deleted_at`, `is_active`)
saved through `Product.save`, plus a DELETE audit-log row. -/
def destroyProduct (db : DB) (requesterId pid : Nat) (now : Nat) :
    Except ProductError DB :=
  match db.products.find?
      (fun p => p.id == pid && !p.is_deleted && p.is_active) with
  | none => .error .notFoundOrDeleted
  | some product =>
    if product.sellerId ≠ requesterId then .error .forbidden
    else
      let edited := Product.applySave { product with
        is_deleted := true, deleted_at := some now, is_active := false } now
      let newProducts := db.products.map
        (fun p => if p.id == pid then edited else p)
      let db1 := { db with products := newProducts }
      let entry : ProductAuditLog := ⟨pid, some requesterId, .DELETE⟩
      .ok { db1 with productLogs := db1.productLogs ++ [entry] }

/-! ## profiles/models.py : Address -/

inductive AddressType where
  | shipping
  | billing
deriving DecidableEq

structure Address where
  pk : Option Nat
  userId : Nat
  address_type : AddressType
  is_default : Bool
  full_name : String
  phone_number : String
  street_address : String
  city : String
  state : String
  postal_code : String
  country : String
deriving DecidableEq

/-- The per-row effect of the `update(is_default=False)` query that
`Address.save` runs over the user's other default addresses of the same
type. -/
def clearOtherDefault (a x : Address) : Address :=
  if x.userId = a.userId ∧ x.address_type = a.address_type ∧
      x.is_default = true ∧ x.pk ≠ a.pk
  then { x with is_default := false } else x

/-- The `Address.objects.filter(user=..., address_type=...).exists()`
query `Address.save` runs before forcing the first address of a type to
be the default. -/
def hasSameTypeAddress (addrs : List Address) (a : Address) : Bool :=
  addrs.any (fun x =>
    decide (x.userId = a.userId ∧ x.address_type = a.address_type))

/-- The "first address of its type becomes the default" step of
`Address.save`. -/
def forceFirstDefault (addrs1 : List Address) (a : Address) : Address :=
  if a.pk = none ∧ hasSameTypeAddress addrs1 a = false
  then { a with is_default := true } else a

/-- `Address.save`: clear the default flag on the user's other addresses
of the same type when this one is default, force the first address of a
type to be default, then persist (insert with a fresh pk, or update the
row with this pk). -/
def Address.applySave (addrs : List Address) (a : Address) (newPk : Nat) :
    List Address :=
  let addrs1 := if a.is_default then addrs.map (clearOtherDefault a)
    else addrs
  let a1 := forceFirstDefault addrs1 a
  match a.pk with
  | none => addrs1 ++ [{ a1 with pk := some newPk }]
  | some _ => addrs1.map (fun x => if x.pk = a.pk then a1 else x)

/-- Number of addresses of user `u` and type `t` flagged default. -/
def defaultCount (addrs : List Address) (u : Nat) (t : AddressType) : Nat :=
  addrs.countP (fun x =>
    x.userId == u && decide (x.address_type = t) && x.is_default)

/-! ## products/models.py : ProductImage -/

structure ProductImage where
  pk : Option Nat
  productId : Nat
  alt_text : String
  is_primary : Bool
  order : Nat
deriving DecidableEq

/-- The per-row effect of the `update(is_primary=False)` query that
`ProductImage.save` runs over the same product's other primary images. -/
def clearOtherPrimary (img i : ProductImage) : ProductImage :=
  if i.productId = img.productId ∧ i.is_primary = true ∧ i.pk ≠ img.pk
  then { i with is_primary := false } else i

/-- `ProductImage.save`: when this image is primary, clear `is_primary`
on every other image of the same product, then persist (insert with a
fresh pk, or update the row with this pk). -/
def ProductImage.applySave (imgs : List ProductImage)
    (img : ProductImage) (newPk : Nat) : List ProductImage :=
  let imgs1 := if img.is_primary then imgs.map (clearOtherPrimary img)
    else imgs
  match img.pk with
  | none => imgs1 ++ [{ img with pk := some newPk }]
  | some _ => imgs1.map (fun i => if i.pk = img.pk then img else i)

/-- Number of images of product `pid` flagged primary. -/
def primaryCount (imgs : List ProductImage) (pid : Nat) : Nat :=
  imgs.countP (fun i => i.productId == pid && i.is_primary)

/-! ## Theorems -/

/-- C9: every `Product.save` with `stock = 0` forces `is_active = false`
(so the product is also unavailable), and saving a deactivated product
with positive stock does not reactivate it. -/
theorem product_zero_stock_forces_inactive (p : Product) (now : Nat) :
    (p.stock = 0 →
      (Product.applySave p now).is_active = false ∧
      (Product.applySave p now).is_available = false) ∧
    (p.is_active = false →
      (Product.applySave p now).is_active = false) := by
  refine ⟨fun h => ?_, fun h => ?_⟩
  · simp [Product.applySave, Product.is_available, h]
  · by_cases hs : p.stock = 0 <;> simp [Product.applySave, hs, h]

theorem product_zero_stock_forces_inactive_witness :
    ((Product.applySave ⟨1, 2, 500, 0, 10, true, false, none, 0⟩ 7).is_active = false ∧
     (Product.applySave ⟨1, 2, 500, 0, 10, true, false, none, 0⟩ 7).is_available = false) ∧
    (Product.applySave ⟨3, 2, 500, 7, 10, false, false, none, 0⟩ 7).is_active = false :=
  ⟨(product_zero_stock_forces_inactive ⟨1, 2, 500, 0, 10, true, false, none, 0⟩ 7).1 rfl,
   (product_zero_stock_forces_inactive ⟨3, 2, 500, 7, 10, false, false, none, 0⟩ 7).2 rfl⟩

/-- C6 amended: `User.soft_delete` sets exactly `is_deleted`,
`is_active` and `deleted_at` and leaves every other field of the user
unchanged; the product destroy endpoint soft-deletes the row in place:
the products table keeps its length, the target row is still present
with the three soft-delete fields set and the `auto_now` column
`updated_at` stamped by `save()`, every other field unchanged, and rows
with other ids survive. The original "changes no other field" fails
for products because `save()` bumps `updated_at`. -/
theorem soft_delete_frame_effect
    (u : User) (now : Nat)
    (db db2 : DB) (requesterId pid : Nat) (p : Product)
    (hfind : db.products.find?
      (fun q => q.id == pid && !q.is_deleted && q.is_active) = some p)
    (hok : destroyProduct db requesterId pid now = .ok db2) :
    ((u.softDelete now).is_deleted = true ∧
     (u.softDelete now).is_active = false ∧
     (u.softDelete now).deleted_at = some now ∧
     (u.softDelete now).id = u.id ∧
     (u.softDelete now).email = u.email ∧
     (u.softDelete now).username = u.username ∧
     (u.softDelete now).first_name = u.first_name ∧
     (u.softDelete now).last_name = u.last_name ∧
     (u.softDelete now).password = u.password ∧
     (u.softDelete now).is_staff = u.is_staff ∧
     (u.softDelete now).is_seller = u.is_seller ∧
     (u.softDelete now).email_verified = u.email_verified ∧
     (u.softDelete now).date_joined = u.date_joined) ∧
    (db2.products.length = db.products.length ∧
     (∃ q ∈ db2.products, q.id = p.id ∧ q.sellerId = p.sellerId ∧
        q.price = p.price ∧ q.stock = p.stock ∧
        q.lowStockThreshold = p.lowStockThreshold ∧
        q.is_deleted = true ∧ q.is_active = false ∧
        q.deleted_at = some now ∧ q.updated_at = now) ∧
     ∀ r ∈ db.products, r.id ≠ pid → r ∈ db2.products) := by
  constructor
  · simp [User.softDelete]
  · have hmem : p ∈ db.products := List.mem_of_find?_eq_some hfind
    have hpred := List.find?_some hfind
    have hid : p.id = pid := by
      simp only [Bool.and_eq_true, beq_iff_eq] at hpred
      exact hpred.1.1
    unfold destroyProduct at hok
    rw [hfind] at hok
    split at hok
    · exact absurd hok (by simp)
    · rename_i p2 heq
      injection heq with heq2
      subst heq2
      split at hok
      · exact absurd hok (by simp)
      · simp only [Except.ok.injEq] at hok
        subst hok
        refine ⟨by simp, ?_, ?_⟩
        · refine ⟨Product.applySave { p with is_deleted := true, deleted_at := some now, is_active := false } now, ?_, ?_⟩
          · have := List.mem_map_of_mem (fun q => if q.id == pid then Product.applySave { p with is_deleted := true, deleted_at := some now, is_active := false } now else q) hmem
            simpa [hid] using this
          · unfold Product.applySave
            split <;> simp
        · intro r hr hne
          have := List.mem_map_of_mem (fun q => if q.id == pid then Product.applySave { p with is_deleted := true, deleted_at := some now, is_active := false } now else q) hr
          simpa [hne] using this

def c6User : User :=
  ⟨1, "a@b.io", "abuser", "A", "B", "pw", true, false, true, true, false, 0, none⟩

def c6Product : Product := ⟨10, 2, 500, 5, 10, true, false, none, 0⟩

def c6DB : DB := ⟨[c6User], [c6Product], [], [], [], [], []⟩

def c6DB2 : DB :=
  match destroyProduct c6DB 2 10 9 with
  | .ok d => d
  | .error _ => c6DB

theorem soft_delete_frame_effect_witness :
    ((c6User.softDelete 9).is_deleted = true ∧
     (c6User.softDelete 9).is_active = false ∧
     (c6User.softDelete 9).deleted_at = some 9 ∧
     (c6User.softDelete 9).id = c6User.id ∧
     (c6User.softDelete 9).email = c6User.email ∧
     (c6User.softDelete 9).username = c6User.username ∧
     (c6User.softDelete 9).first_name = c6User.first_name ∧
     (c6User.softDelete 9).last_name = c6User.last_name ∧
     (c6User.softDelete 9).password = c6User.password ∧
     (c6User.softDelete 9).is_staff = c6User.is_staff ∧
     (c6User.softDelete 9).is_seller = c6User.is_seller ∧
     (c6User.softDelete 9).email_verified = c6User.email_verified ∧
     (c6User.softDelete 9).date_joined = c6User.date_joined) ∧
    (c6DB2.products.length = c6DB.products.length ∧
     (∃ q ∈ c6DB2.products, q.id = c6Product.id ∧
        q.sellerId = c6Product.sellerId ∧
        q.price = c6Product.price ∧ q.stock = c6Product.stock ∧
        q.lowStockThreshold = c6Product.lowStockThreshold ∧
        q.is_deleted = true ∧ q.is_active = false ∧
        q.deleted_at = some 9 ∧ q.updated_at = 9) ∧
     ∀ r ∈ c6DB.products, r.id ≠ 10 → r ∈ c6DB2.products) :=
  soft_delete_frame_effect c6User 9 c6DB c6DB2 2 10 c6Product rfl rfl

/-- C6 counterexample: the destroy endpoint does not change only
`is_deleted`, `is_active` and `deleted_at`: `save()` also bumps the
`auto_now` column `updated_at` (here from 0 to 9), so a fourth field of
the record changes. -/
theorem soft_delete_updated_at_counterexample :
    destroyProduct c6DB 2 10 9 = .ok c6DB2 ∧
    c6DB.products.map (fun p => p.updated_at) = [0] ∧
    c6DB2.products.map (fun p => p.updated_at) = [9] :=
  ⟨rfl, rfl, rfl⟩

def c3User : User :=
  ⟨1, "s@x.io", "sellerone", "S", "One", "pw", true, false, true, true, false, 0, none⟩

def c3Product : Product := ⟨11, 1, 300, 5, 10, true, false, none, 0⟩

def c3DB : DB := ⟨[c3User], [c3Product], [⟨5, 1⟩], [], [], [], []⟩

def c3DB2 : DB :=
  match deleteAccount c3DB 1 "pw" 9 with
  | .ok d => d
  | .error _ => c3DB

/-- C3 counterexample: soft-deleting user 1 through the delete-account
endpoint marks the user row, but the user's product keeps
`is_deleted = false` and `is_active = true`, and the cart row has no
soft-delete state at all: nothing cascades. -/
theorem soft_delete_cascade_counterexample :
    deleteAccount c3DB 1 "pw" 9 = .ok c3DB2 ∧
    c3DB2.users.map (fun u => u.is_deleted) = [true] ∧
    c3DB2.products.map (fun p => p.is_deleted) = [false] ∧
    c3DB2.products.map (fun p => p.is_active) = [true] ∧
    c3DB2.carts = c3DB.carts := by
  refine ⟨rfl, ?_, ?_, ?_, ?_⟩ <;> rfl

/-- C3 amended: soft-deleting a user account marks only the user row
(`is_deleted`, `is_active`, `deleted_at`); the products, carts and cart
items tables are left exactly as they were, with no cascade. -/
theorem soft_delete_marks_only_user
    (db : DB) (uid : Nat) (pw : String) (now : Nat) (db2 : DB)
    (hok : deleteAccount db uid pw now = .ok db2) :
    db2.products = db.products ∧ db2.carts = db.carts ∧
    db2.items = db.items ∧
    db2.users.length = db.users.length ∧
    ∀ u ∈ db.users, u.id = uid → u.softDelete now ∈ db2.users := by
  unfold deleteAccount at hok
  split at hok
  · exact absurd hok (by simp)
  · split at hok
    · exact absurd hok (by simp)
    · split at hok
      · exact absurd hok (by simp)
      · simp only [Except.ok.injEq] at hok
        subst hok
        refine ⟨rfl, rfl, rfl, by simp, ?_⟩
        intro u hu hid
        have := List.mem_map_of_mem
          (fun v => if v.id == uid then User.softDelete v now else v) hu
        simpa [hid] using this

theorem soft_delete_marks_only_user_witness :
    c3DB2.products = c3DB.products ∧ c3DB2.carts = c3DB.carts ∧
    c3DB2.items = c3DB.items ∧
    c3DB2.users.length = c3DB.users.length ∧
    ∀ u ∈ c3DB.users, u.id = 1 → u.softDelete 9 ∈ c3DB2.users :=
  soft_delete_marks_only_user c3DB 1 "pw" 9 c3DB2 rfl

/-! ### Generic counting helpers for the uniqueness invariants -/

theorem countP_key_zero_of_not_mem {α : Type} (l : List α)
    (f : α → Option Nat) (k : Option Nat) (hk : k ∉ l.map f) :
    l.countP (fun x => f x == k) = 0 := by
  rw [List.countP_eq_zero]
  intro a ha hpa
  have hfa : f a = k := beq_iff_eq.mp hpa
  exact hk (hfa ▸ List.mem_map_of_mem f ha)

theorem countP_key_le_one {α : Type} (l : List α) (f : α → Option Nat)
    (k : Option Nat) (hnd : (l.map f).Nodup) :
    l.countP (fun x => f x == k) ≤ 1 := by
  induction l with
  | nil => simp
  | cons x xs ih =>
      simp only [List.map_cons, List.nodup_cons] at hnd
      by_cases hx : f x = k
      · have hz : xs.countP (fun y => f y == k) = 0 :=
          countP_key_zero_of_not_mem xs f k (hx ▸ hnd.1)
        simp [List.countP_cons, hx, hz]
      · have hxb : (f x == k) = false := beq_eq_false_iff_ne.mpr hx
        simpa [List.countP_cons, hxb] using ih hnd.2

theorem countP_key_eq_one {α : Type} (l : List α) (f : α → Option Nat)
    (k : Option Nat) (hnd : (l.map f).Nodup) (hmem : k ∈ l.map f) :
    l.countP (fun x => f x == k) = 1 := by
  induction l with
  | nil => simp at hmem
  | cons x xs ih =>
      simp only [List.map_cons, List.nodup_cons] at hnd
      by_cases hx : f x = k
      · have hz : xs.countP (fun y => f y == k) = 0 :=
          countP_key_zero_of_not_mem xs f k (hx ▸ hnd.1)
        simp [List.countP_cons, hx, hz]
      · have hxb : (f x == k) = false := beq_eq_false_iff_ne.mpr hx
        simp only [List.map_cons, List.mem_cons] at hmem
        rcases hmem with hmem | hmem
        · exact absurd hmem.symm hx
        · simpa [List.countP_cons, hxb] using ih hnd.2 hmem

def c4Image : ProductImage := ⟨none, 1, "", false, 0⟩

/-- C4 counterexample: saving a non-primary image of product 1 into an
empty image table stores the image but leaves product 1 with zero
primary images, so a product does not have exactly one primary image
after every `ProductImage` save. -/
theorem product_image_primary_counterexample :
    (ProductImage.applySave [] c4Image 7).length = 1 ∧
    primaryCount (ProductImage.applySave [] c4Image 7) 1 = 0 := by
  constructor <;> rfl

theorem clearOtherPrimary_pk (img i : ProductImage) :
    (clearOtherPrimary img i).pk = i.pk := by
  unfold clearOtherPrimary; split <;> rfl

theorem clearOtherPrimary_primary_pk (img i : ProductImage)
    (h : ((clearOtherPrimary img i).productId == img.productId &&
      (clearOtherPrimary img i).is_primary) = true) : i.pk = img.pk := by
  unfold clearOtherPrimary at h
  split at h
  · simp at h
  · rename_i hcond
    simp only [Bool.and_eq_true, beq_iff_eq] at h
    by_contra hne
    exact hcond ⟨h.1, h.2, hne⟩

theorem clearOtherPrimary_other_pid (img i : ProductImage) (pid : Nat)
    (hpid : pid ≠ img.productId) :
    ((clearOtherPrimary img i).productId == pid &&
      (clearOtherPrimary img i).is_primary) =
    (i.productId == pid && i.is_primary) := by
  unfold clearOtherPrimary
  split
  · rename_i hcond
    have hne : i.productId ≠ pid := by
      rw [hcond.1]
      exact fun h => hpid h.symm
    simp [beq_eq_false_iff_ne.mpr hne]
  · rfl

theorem countP_map_mono {α β : Type} (l : List α) (f : α → β)
    (p : β → Bool) (q : α → Bool)
    (h : ∀ a ∈ l, p (f a) = true → q a = true) :
    (l.map f).countP p ≤ l.countP q := by
  rw [List.countP_map]
  exact List.countP_mono_left h

theorem countP_map_eq {α β : Type} (l : List α) (f : α → β)
    (p : β → Bool) (q : α → Bool)
    (h : ∀ a ∈ l, p (f a) = q a) :
    (l.map f).countP p = l.countP q := by
  rw [List.countP_map]
  exact List.countP_congr (fun a ha => by rw [Function.comp_apply, h a ha])

theorem applySave_primary_none (imgs : List ProductImage)
    (img : ProductImage) (newPk : Nat)
    (hp : img.is_primary = true) (hpk : img.pk = none) :
    ProductImage.applySave imgs img newPk
      = imgs.map (clearOtherPrimary img) ++ [{ img with pk := some newPk }] := by
  simp [ProductImage.applySave, hp, hpk]

theorem applySave_primary_some (imgs : List ProductImage)
    (img : ProductImage) (newPk K : Nat)
    (hp : img.is_primary = true) (hpk : img.pk = some K) :
    ProductImage.applySave imgs img newPk
      = (imgs.map (clearOtherPrimary img)).map
          (fun i => if i.pk = some K then img else i) := by
  simp [ProductImage.applySave, hp, hpk]

theorem applySave_nonprimary_none (imgs : List ProductImage)
    (img : ProductImage) (newPk : Nat)
    (hp : img.is_primary = false) (hpk : img.pk = none) :
    ProductImage.applySave imgs img newPk
      = imgs ++ [{ img with pk := some newPk }] := by
  simp [ProductImage.applySave, hp, hpk]

theorem applySave_nonprimary_some (imgs : List ProductImage)
    (img : ProductImage) (newPk K : Nat)
    (hp : img.is_primary = false) (hpk : img.pk = some K) :
    ProductImage.applySave imgs img newPk
      = imgs.map (fun i => if i.pk = some K then img else i) := by
  simp [ProductImage.applySave, hp, hpk]

theorem primary_save_own_eq_one
    (imgs : List ProductImage) (img : ProductImage) (newPk : Nat)
    (hnd : (imgs.map (fun i => i.pk)).Nodup)
    (hsome : ∀ i ∈ imgs, i.pk ≠ none)
    (hp : img.is_primary = true)
    (hmem : img.pk = none ∨ img.pk ∈ imgs.map (fun i => i.pk)) :
    primaryCount (ProductImage.applySave imgs img newPk)
      img.productId = 1 := by
  cases hpkv : img.pk with
  | none =>
      rw [applySave_primary_none imgs img newPk hp hpkv]
      unfold primaryCount
      rw [List.countP_append]
      have h0 : (imgs.map (clearOtherPrimary img)).countP
          (fun i => i.productId == img.productId && i.is_primary) = 0 := by
        rw [List.countP_eq_zero]
        intro a hma hpa
        obtain ⟨b, hb, rfl⟩ := List.mem_map.mp hma
        have h2 := clearOtherPrimary_primary_pk img b hpa
        rw [hpkv] at h2
        exact hsome b hb h2
      rw [h0]
      simp [List.countP_cons, hp]
  | some K =>
      rcases hmem with hnone | hmem
      · rw [hpkv] at hnone
        exact absurd hnone (by simp)
      · rw [hpkv] at hmem
        rw [applySave_primary_some imgs img newPk K hp hpkv]
        unfold primaryCount
        have h1 : ((imgs.map (clearOtherPrimary img)).map
            (fun i => if i.pk = some K then img else i)).countP
            (fun i => i.productId == img.productId && i.is_primary)
            = (imgs.map (clearOtherPrimary img)).countP
                (fun a => a.pk == some K) := by
          apply countP_map_eq
          intro a hma
          by_cases hak : a.pk = some K
          · rw [if_pos hak]
            simp [hp, hak]
          · rw [if_neg hak]
            rw [beq_eq_false_iff_ne.mpr hak]
            obtain ⟨b, hb, rfl⟩ := List.mem_map.mp hma
            cases hX : ((clearOtherPrimary img b).productId ==
                img.productId && (clearOtherPrimary img b).is_primary) with
            | false => rfl
            | true =>
                have h2 := clearOtherPrimary_primary_pk img b hX
                rw [hpkv] at h2
                rw [clearOtherPrimary_pk] at hak
                exact absurd h2 hak
        have h2 : (imgs.map (clearOtherPrimary img)).countP
            (fun a => a.pk == some K)
            = imgs.countP (fun b => b.pk == some K) := by
          apply countP_map_eq
          intro b _
          rw [clearOtherPrimary_pk]
        rw [h1, h2]
        exact countP_key_eq_one imgs (fun i => i.pk) (some K) hnd hmem

theorem primary_save_own_le_one
    (imgs : List ProductImage) (img : ProductImage) (newPk : Nat)
    (hnd : (imgs.map (fun i => i.pk)).Nodup)
    (hsome : ∀ i ∈ imgs, i.pk ≠ none)
    (hp : img.is_primary = true) :
    primaryCount (ProductImage.applySave imgs img newPk)
      img.productId ≤ 1 := by
  cases hpkv : img.pk with
  | none =>
      exact le_of_eq
        (primary_save_own_eq_one imgs img newPk hnd hsome hp (Or.inl hpkv))
  | some K =>
      rw [applySave_primary_some imgs img newPk K hp hpkv]
      unfold primaryCount
      have h1 : ((imgs.map (clearOtherPrimary img)).map
          (fun i => if i.pk = some K then img else i)).countP
          (fun i => i.productId == img.productId && i.is_primary)
          ≤ (imgs.map (clearOtherPrimary img)).countP
              (fun a => a.pk == some K) := by
        apply countP_map_mono
        intro a hma h
        by_cases hak : a.pk = some K
        · simp [hak]
        · rw [if_neg hak] at h
          obtain ⟨b, hb, rfl⟩ := List.mem_map.mp hma
          have h2 := clearOtherPrimary_primary_pk img b h
          rw [hpkv] at h2
          rw [clearOtherPrimary_pk] at hak
          exact absurd h2 hak
      have h2 : (imgs.map (clearOtherPrimary img)).countP
          (fun a => a.pk == some K)
          = imgs.countP (fun b => b.pk == some K) := by
        apply countP_map_eq
        intro b _
        rw [clearOtherPrimary_pk]
      rw [h2] at h1
      exact le_trans h1 (countP_key_le_one imgs (fun i => i.pk) (some K) hnd)

/-- C4 amended: when the stored image rows have distinct non-null pks
and each product starts with at most one primary image,
`ProductImage.save` preserves "at most one primary image per product";
and a save with `is_primary=True` (a new image, or an update of a
stored row) leaves its product with exactly one primary image. The
original "exactly one after any save" fails for non-primary saves. -/
theorem product_image_primary_unique
    (imgs : List ProductImage) (img : ProductImage) (newPk : Nat)
    (hnd : (imgs.map (fun i => i.pk)).Nodup)
    (hsome : ∀ i ∈ imgs, i.pk ≠ none)
    (hinv : ∀ pid, primaryCount imgs pid ≤ 1) :
    (∀ pid, primaryCount (ProductImage.applySave imgs img newPk) pid ≤ 1) ∧
    (img.is_primary = true →
      (img.pk = none ∨ img.pk ∈ imgs.map (fun i => i.pk)) →
      primaryCount (ProductImage.applySave imgs img newPk) img.productId
        = 1) := by
  constructor
  · intro pid
    by_cases hp : img.is_primary = true
    · by_cases hpid : pid = img.productId
      · subst hpid
        exact primary_save_own_le_one imgs img newPk hnd hsome hp
      · cases hpkv : img.pk with
        | none =>
            rw [applySave_primary_none imgs img newPk hp hpkv]
            unfold primaryCount
            rw [List.countP_append]
            have hA : (imgs.map (clearOtherPrimary img)).countP
                (fun i => i.productId == pid && i.is_primary)
                = imgs.countP (fun i => i.productId == pid && i.is_primary) :=
              countP_map_eq imgs (clearOtherPrimary img) _ _
                (fun b _ => clearOtherPrimary_other_pid img b pid hpid)
            have hB : List.countP
                (fun i => i.productId == pid && i.is_primary)
                [{ img with pk := some newPk }] = 0 := by
              simp [beq_eq_false_iff_ne.mpr (fun h => hpid h.symm)]
            rw [hA, hB]
            simpa using hinv pid
        | some K =>
            rw [applySave_primary_some imgs img newPk K hp hpkv]
            unfold primaryCount
            have h1 : ((imgs.map (clearOtherPrimary img)).map
                (fun i => if i.pk = some K then img else i)).countP
                (fun i => i.productId == pid && i.is_primary)
                ≤ (imgs.map (clearOtherPrimary img)).countP
                    (fun i => i.productId == pid && i.is_primary) := by
              apply countP_map_mono
              intro a _ h
              by_cases hak : a.pk = some K
              · rw [if_pos hak] at h
                rw [beq_eq_false_iff_ne.mpr (fun hh => hpid hh.symm)] at h
                simp at h
              · rw [if_neg hak] at h
                exact h
            have h2 : (imgs.map (clearOtherPrimary img)).countP
                (fun i => i.productId == pid && i.is_primary)
                = imgs.countP (fun i => i.productId == pid && i.is_primary) :=
              countP_map_eq imgs (clearOtherPrimary img) _ _
                (fun b _ => clearOtherPrimary_other_pid img b pid hpid)
            rw [h2] at h1
            exact le_trans h1 (hinv pid)
    · have hpf : img.is_primary = false := by
        revert hp
        cases img.is_primary <;> simp
      cases hpkv : img.pk with
      | none =>
          rw [applySave_nonprimary_none imgs img newPk hpf hpkv]
          unfold primaryCount
          rw [List.countP_append]
          have hB : List.countP
              (fun i => i.productId == pid && i.is_primary)
              [{ img with pk := some newPk }] = 0 := by
            simp [hpf]
          rw [hB]
          simpa using hinv pid
      | some K =>
          rw [applySave_nonprimary_some imgs img newPk K hpf hpkv]
          unfold primaryCount
          have h1 : (imgs.map
              (fun i => if i.pk = some K then img else i)).countP
              (fun i => i.productId == pid && i.is_primary)
              ≤ imgs.countP (fun i => i.productId == pid && i.is_primary) := by
            apply countP_map_mono
            intro a _ h
            by_cases hak : a.pk = some K
            · rw [if_pos hak] at h
              rw [hpf] at h
              simp at h
            · rw [if_neg hak] at h
              exact h
          exact le_trans h1 (hinv pid)
  · intro hp hmem
    exact primary_save_own_eq_one imgs img newPk hnd hsome hp hmem

def c4Imgs : List ProductImage :=
  [⟨some 1, 1, "", true, 0⟩, ⟨some 2, 1, "", false, 1⟩,
   ⟨some 3, 2, "", true, 0⟩]

def c4NewImg : ProductImage := ⟨some 2, 1, "", true, 1⟩

theorem product_image_primary_unique_witness :
    ((c4Imgs.map (fun i => i.pk)).Nodup ∧
     (∀ i ∈ c4Imgs, i.pk ≠ none) ∧
     (∀ pid, primaryCount c4Imgs pid ≤ 1)) ∧
    ((∀ pid, primaryCount (ProductImage.applySave c4Imgs c4NewImg 9) pid
        ≤ 1) ∧
     (c4NewImg.is_primary = true →
      (c4NewImg.pk = none ∨ c4NewImg.pk ∈ c4Imgs.map (fun i => i.pk)) →
      primaryCount (ProductImage.applySave c4Imgs c4NewImg 9)
        c4NewImg.productId = 1)) :=
  ⟨⟨by decide, by decide, fun pid => by
      by_cases h1 : pid = 1
      · subst h1; decide
      · by_cases h2 : pid = 2
        · subst h2; decide
        · simp [primaryCount, c4Imgs, List.countP_cons,
            beq_eq_false_iff_ne.mpr (fun h => h1 h.symm),
            beq_eq_false_iff_ne.mpr (fun h => h2 h.symm)]⟩,
   product_image_primary_unique c4Imgs c4NewImg 9 (by decide) (by decide)
     (fun pid => by
      by_cases h1 : pid = 1
      · subst h1; decide
      · by_cases h2 : pid = 2
        · subst h2; decide
        · simp [primaryCount, c4Imgs, List.countP_cons,
            beq_eq_false_iff_ne.mpr (fun h => h1 h.symm),
            beq_eq_false_iff_ne.mpr (fun h => h2 h.symm)])⟩

theorem clearOtherDefault_pk (a x : Address) :
    (clearOtherDefault a x).pk = x.pk := by
  unfold clearOtherDefault; split <;> rfl

theorem clearOtherDefault_key_pk (a x : Address)
    (h : ((clearOtherDefault a x).userId == a.userId &&
      decide ((clearOtherDefault a x).address_type = a.address_type) &&
      (clearOtherDefault a x).is_default) = true) : x.pk = a.pk := by
  unfold clearOtherDefault at h
  split at h
  · simp at h
  · rename_i hcond
    simp only [Bool.and_eq_true, beq_iff_eq, decide_eq_true_eq] at h
    by_contra hne
    exact hcond ⟨h.1.1, h.1.2, h.2, hne⟩

theorem clearOtherDefault_other_key (a x : Address) (u : Nat)
    (t : AddressType) (hk : ¬(u = a.userId ∧ t = a.address_type)) :
    ((clearOtherDefault a x).userId == u &&
      decide ((clearOtherDefault a x).address_type = t) &&
      (clearOtherDefault a x).is_default) =
    (x.userId == u && decide (x.address_type = t) && x.is_default) := by
  unfold clearOtherDefault
  split
  · rename_i hcond
    by_cases hu : x.userId = u
    · by_cases ht : x.address_type = t
      · exact absurd ⟨by rw [← hu, hcond.1], by rw [← ht, hcond.2.1]⟩ hk
      · simp [ht]
    · simp [beq_eq_false_iff_ne.mpr hu]
  · rfl

theorem forceFirstDefault_of_default (l : List Address) (a : Address)
    (ha : a.is_default = true) : forceFirstDefault l a = a := by
  unfold forceFirstDefault
  split
  · cases a
    simp_all
  · rfl

theorem addrSave_default_none (addrs : List Address) (a : Address)
    (newPk : Nat) (ha : a.is_default = true) (hpk : a.pk = none) :
    Address.applySave addrs a newPk
      = addrs.map (clearOtherDefault a) ++ [{ a with pk := some newPk }] := by
  simp [Address.applySave, ha, hpk,
    forceFirstDefault_of_default _ a ha]

theorem addrSave_default_some (addrs : List Address) (a : Address)
    (newPk K : Nat) (ha : a.is_default = true) (hpk : a.pk = some K) :
    Address.applySave addrs a newPk
      = (addrs.map (clearOtherDefault a)).map
          (fun x => if x.pk = some K then a else x) := by
  simp [Address.applySave, ha, hpk,
    forceFirstDefault_of_default _ a ha]

theorem forceFirstDefault_of_some (l : List Address) (a : Address)
    (K : Nat) (hpk : a.pk = some K) : forceFirstDefault l a = a := by
  unfold forceFirstDefault
  rw [if_neg]
  simp [hpk]

theorem addrSave_nondefault_some (addrs : List Address) (a : Address)
    (newPk K : Nat) (ha : a.is_default = false) (hpk : a.pk = some K) :
    Address.applySave addrs a newPk
      = addrs.map (fun x => if x.pk = some K then a else x) := by
  simp [Address.applySave, ha, hpk, forceFirstDefault_of_some _ a K hpk]

theorem addrSave_nondefault_none_existing (addrs : List Address)
    (a : Address) (newPk : Nat) (ha : a.is_default = false)
    (hpk : a.pk = none) (hex : hasSameTypeAddress addrs a = true) :
    Address.applySave addrs a newPk
      = addrs ++ [{ a with pk := some newPk }] := by
  have hforce : forceFirstDefault addrs a = a := by
    unfold forceFirstDefault
    rw [if_neg]
    simp [hex]
  simp [Address.applySave, ha, hpk, hforce]

theorem addrSave_nondefault_none_first (addrs : List Address)
    (a : Address) (newPk : Nat) (ha : a.is_default = false)
    (hpk : a.pk = none) (hex : hasSameTypeAddress addrs a = false) :
    Address.applySave addrs a newPk
      = addrs ++ [{ a with is_default := true, pk := some newPk }] := by
  have hforce : forceFirstDefault addrs a = { a with is_default := true } := by
    unfold forceFirstDefault
    rw [if_pos ⟨hpk, hex⟩]
  simp [Address.applySave, ha, hpk, hforce]

theorem default_save_own_eq_one
    (addrs : List Address) (a : Address) (newPk : Nat)
    (hnd : (addrs.map (fun x => x.pk)).Nodup)
    (hsome : ∀ x ∈ addrs, x.pk ≠ none)
    (ha : a.is_default = true)
    (hmem : a.pk = none ∨ a.pk ∈ addrs.map (fun x => x.pk)) :
    defaultCount (Address.applySave addrs a newPk)
      a.userId a.address_type = 1 := by
  cases hpkv : a.pk with
  | none =>
      rw [addrSave_default_none addrs a newPk ha hpkv]
      unfold defaultCount
      rw [List.countP_append]
      have h0 : (addrs.map (clearOtherDefault a)).countP
          (fun x => x.userId == a.userId &&
            decide (x.address_type = a.address_type) && x.is_default) = 0 := by
        rw [List.countP_eq_zero]
        intro x hmx hpx
        obtain ⟨b, hb, rfl⟩ := List.mem_map.mp hmx
        have h2 := clearOtherDefault_key_pk a b hpx
        rw [hpkv] at h2
        exact hsome b hb h2
      rw [h0]
      simp [List.countP_cons, ha]
  | some K =>
      rcases hmem with hnone | hmem
      · rw [hpkv] at hnone
        exact absurd hnone (by simp)
      · rw [hpkv] at hmem
        rw [addrSave_default_some addrs a newPk K ha hpkv]
        unfold defaultCount
        have h1 : ((addrs.map (clearOtherDefault a)).map
            (fun x => if x.pk = some K then a else x)).countP
            (fun x => x.userId == a.userId &&
              decide (x.address_type = a.address_type) && x.is_default)
            = (addrs.map (clearOtherDefault a)).countP
                (fun x => x.pk == some K) := by
          apply countP_map_eq
          intro x hmx
          by_cases hak : x.pk = some K
          · rw [if_pos hak]
            simp [ha, hak]
          · rw [if_neg hak]
            rw [beq_eq_false_iff_ne.mpr hak]
            obtain ⟨b, hb, rfl⟩ := List.mem_map.mp hmx
            cases hX : ((clearOtherDefault a b).userId == a.userId &&
                decide ((clearOtherDefault a b).address_type
                  = a.address_type) &&
                (clearOtherDefault a b).is_default) with
            | false => rfl
            | true =>
                have h2 := clearOtherDefault_key_pk a b hX
                rw [hpkv] at h2
                rw [clearOtherDefault_pk] at hak
                exact absurd h2 hak
        have h2 : (addrs.map (clearOtherDefault a)).countP
            (fun x => x.pk == some K)
            = addrs.countP (fun b => b.pk == some K) := by
          apply countP_map_eq
          intro b _
          rw [clearOtherDefault_pk]
        rw [h1, h2]
        exact countP_key_eq_one addrs (fun x => x.pk) (some K) hnd hmem

theorem default_save_own_le_one
    (addrs : List Address) (a : Address) (newPk : Nat)
    (hnd : (addrs.map (fun x => x.pk)).Nodup)
    (hsome : ∀ x ∈ addrs, x.pk ≠ none)
    (ha : a.is_default = true) :
    defaultCount (Address.applySave addrs a newPk)
      a.userId a.address_type ≤ 1 := by
  cases hpkv : a.pk with
  | none =>
      exact le_of_eq
        (default_save_own_eq_one addrs a newPk hnd hsome ha (Or.inl hpkv))
  | some K =>
      rw [addrSave_default_some addrs a newPk K ha hpkv]
      unfold defaultCount
      have h1 : ((addrs.map (clearOtherDefault a)).map
          (fun x => if x.pk = some K then a else x)).countP
          (fun x => x.userId == a.userId &&
            decide (x.address_type = a.address_type) && x.is_default)
          ≤ (addrs.map (clearOtherDefault a)).countP
              (fun x => x.pk == some K) := by
        apply countP_map_mono
        intro x hmx h
        by_cases hak : x.pk = some K
        · simp [hak]
        · rw [if_neg hak] at h
          obtain ⟨b, hb, rfl⟩ := List.mem_map.mp hmx
          have h2 := clearOtherDefault_key_pk a b h
          rw [hpkv] at h2
          rw [clearOtherDefault_pk] at hak
          exact absurd h2 hak
      have h2 : (addrs.map (clearOtherDefault a)).countP
          (fun x => x.pk == some K)
          = addrs.countP (fun b => b.pk == some K) := by
        apply countP_map_eq
        intro b _
        rw [clearOtherDefault_pk]
      rw [h2] at h1
      exact le_trans h1 (countP_key_le_one addrs (fun x => x.pk) (some K) hnd)

/-- C5: when the stored address rows have distinct non-null pks and
every (user, type) pair starts with at most one default address,
`Address.save` — for a create as well as an update, default or not,
including the forced default on the first address of a type — leaves
every (user, type) pair with at most one default address; and saving an
address with `is_default=True` leaves it the unique default of its
(user, type) pair. -/
theorem address_default_unique
    (addrs : List Address) (a : Address) (newPk : Nat)
    (hnd : (addrs.map (fun x => x.pk)).Nodup)
    (hsome : ∀ x ∈ addrs, x.pk ≠ none)
    (hinv : ∀ u t, defaultCount addrs u t ≤ 1) :
    (∀ u t, defaultCount (Address.applySave addrs a newPk) u t ≤ 1) ∧
    (a.is_default = true →
      (a.pk = none ∨ a.pk ∈ addrs.map (fun x => x.pk)) →
      defaultCount (Address.applySave addrs a newPk)
        a.userId a.address_type = 1) := by
  constructor
  · intro u t
    by_cases ha : a.is_default = true
    · by_cases hkey : u = a.userId ∧ t = a.address_type
      · obtain ⟨rfl, rfl⟩ := hkey
        exact default_save_own_le_one addrs a newPk hnd hsome ha
      · have happ : (a.userId == u && decide (a.address_type = t) &&
            a.is_default) = false := by
          by_cases hu : a.userId = u
          · by_cases ht : a.address_type = t
            · exact absurd ⟨hu.symm, ht.symm⟩ hkey
            · simp [ht]
          · simp [beq_eq_false_iff_ne.mpr hu]
        cases hpkv : a.pk with
        | none =>
            rw [addrSave_default_none addrs a newPk ha hpkv]
            unfold defaultCount
            rw [List.countP_append]
            have hA : (addrs.map (clearOtherDefault a)).countP
                (fun x => x.userId == u && decide (x.address_type = t) &&
                  x.is_default)
                = addrs.countP (fun x => x.userId == u &&
                    decide (x.address_type = t) && x.is_default) :=
              countP_map_eq addrs (clearOtherDefault a) _ _
                (fun b _ => clearOtherDefault_other_key a b u t hkey)
            have hB : List.countP
                (fun x => x.userId == u && decide (x.address_type = t) &&
                  x.is_default)
                [{ a with pk := some newPk }] = 0 := by
              simp [List.countP_cons, List.countP_nil, happ]
            rw [hA, hB]
            simpa using hinv u t
        | some K =>
            rw [addrSave_default_some addrs a newPk K ha hpkv]
            unfold defaultCount
            have h1 : ((addrs.map (clearOtherDefault a)).map
                (fun x => if x.pk = some K then a else x)).countP
                (fun x => x.userId == u && decide (x.address_type = t) &&
                  x.is_default)
                ≤ (addrs.map (clearOtherDefault a)).countP
                    (fun x => x.userId == u &&
                      decide (x.address_type = t) && x.is_default) := by
              apply countP_map_mono
              intro x _ h
              by_cases hak : x.pk = some K
              · rw [if_pos hak, happ] at h
                simp at h
              · rw [if_neg hak] at h
                exact h
            have h2 : (addrs.map (clearOtherDefault a)).countP
                (fun x => x.userId == u && decide (x.address_type = t) &&
                  x.is_default)
                = addrs.countP (fun x => x.userId == u &&
                    decide (x.address_type = t) && x.is_default) :=
              countP_map_eq addrs (clearOtherDefault a) _ _
                (fun b _ => clearOtherDefault_other_key a b u t hkey)
            rw [h2] at h1
            exact le_trans h1 (hinv u t)
    · have hdf : a.is_default = false := by
        revert ha
        cases a.is_default <;> simp
      cases hpkv : a.pk with
      | some K =>
          rw [addrSave_nondefault_some addrs a newPk K hdf hpkv]
          unfold defaultCount
          have h1 : (addrs.map
              (fun x => if x.pk = some K then a else x)).countP
              (fun x => x.userId == u && decide (x.address_type = t) &&
                x.is_default)
              ≤ addrs.countP (fun x => x.userId == u &&
                  decide (x.address_type = t) && x.is_default) := by
            apply countP_map_mono
            intro x _ h
            by_cases hak : x.pk = some K
            · rw [if_pos hak, hdf] at h
              simp at h
            · rw [if_neg hak] at h
              exact h
          exact le_trans h1 (hinv u t)
      | none =>
          cases hex : hasSameTypeAddress addrs a with
          | true =>
              rw [addrSave_nondefault_none_existing addrs a newPk hdf
                hpkv hex]
              unfold defaultCount
              rw [List.countP_append]
              have hB : List.countP
                  (fun x => x.userId == u && decide (x.address_type = t) &&
                    x.is_default)
                  [{ a with pk := some newPk }] = 0 := by
                simp [hdf]
              rw [hB]
              simpa using hinv u t
          | false =>
              rw [addrSave_nondefault_none_first addrs a newPk hdf
                hpkv hex]
              unfold defaultCount
              rw [List.countP_append]
              by_cases hkey : u = a.userId ∧ t = a.address_type
              · obtain ⟨rfl, rfl⟩ := hkey
                have h0 : addrs.countP
                    (fun x => x.userId == a.userId &&
                      decide (x.address_type = a.address_type) &&
                      x.is_default) = 0 := by
                  rw [List.countP_eq_zero]
                  intro x hx hpx
                  have hall := List.any_eq_false.mp hex x hx
                  simp only [Bool.and_eq_true, beq_iff_eq,
                    decide_eq_true_eq] at hpx
                  exact hall (decide_eq_true ⟨hpx.1.1, hpx.1.2⟩)
                rw [h0]
                simp [List.countP_cons]
              · have happ : (a.userId == u &&
                    decide (a.address_type = t) && true) = false := by
                  by_cases hu : a.userId = u
                  · by_cases ht : a.address_type = t
                    · exact absurd ⟨hu.symm, ht.symm⟩ hkey
                    · simp [ht]
                  · simp [beq_eq_false_iff_ne.mpr hu]
                have hB : List.countP
                    (fun x => x.userId == u &&
                      decide (x.address_type = t) && x.is_default)
                    [{ a with is_default := true, pk := some newPk }]
                    = 0 := by
                  simp [List.countP_cons, List.countP_nil, happ]
                rw [hB]
                simpa using hinv u t
  · intro ha hmem
    exact default_save_own_eq_one addrs a newPk hnd hsome ha hmem

def c5Addrs : List Address :=
  [⟨some 1, 1, .shipping, true, "", "", "", "", "", "", ""⟩,
   ⟨some 2, 1, .billing, true, "", "", "", "", "", "", ""⟩,
   ⟨some 3, 2, .shipping, true, "", "", "", "", "", "", ""⟩]

def c5New : Address := ⟨none, 1, .shipping, true, "", "", "", "", "", "", ""⟩

theorem address_default_unique_witness :
    ((c5Addrs.map (fun x => x.pk)).Nodup ∧
     (∀ x ∈ c5Addrs, x.pk ≠ none) ∧
     (∀ u t, defaultCount c5Addrs u t ≤ 1)) ∧
    ((∀ u t, defaultCount (Address.applySave c5Addrs c5New 9) u t ≤ 1) ∧
     (c5New.is_default = true →
      (c5New.pk = none ∨ c5New.pk ∈ c5Addrs.map (fun x => x.pk)) →
      defaultCount (Address.applySave c5Addrs c5New 9)
        c5New.userId c5New.address_type = 1)) := by
  have hinv : ∀ u t, defaultCount c5Addrs u t ≤ 1 := by
    intro u t
    by_cases h1 : u = 1
    · subst h1
      cases t <;> decide
    · by_cases h2 : u = 2
      · subst h2
        cases t <;> decide
      · have e1 : (1 == u) = false :=
          beq_eq_false_iff_ne.mpr (fun h => h1 h.symm)
        have e2 : (2 == u) = false :=
          beq_eq_false_iff_ne.mpr (fun h => h2 h.symm)
        simp [defaultCount, c5Addrs, List.countP_cons, e1, e2]
  exact ⟨⟨by decide, by decide, hinv⟩,
    address_default_unique c5Addrs c5New 9 (by decide) (by decide) hinv⟩

/-! ### Helper lemmas about the cart operations -/

/-- Evaluate a transactional request: an error result means the
transaction rolled back, so the database is the one from before. -/
def runCart (db : DB) (r : Except CartError DB) : DB :=
  match r with
  | .ok d => d
  | .error _ => db

theorem find?_id_and (l : List Product) (pid : Nat) (p : Product)
    (g : Product → Bool)
    (hnd : (l.map (fun x => x.id)).Nodup)
    (h : l.find? (fun x => x.id == pid) = some p) :
    l.find? (fun x => x.id == pid && g x)
      = if g p = true then some p else none := by
  induction l with
  | nil => simp at h
  | cons y ys ih =>
      simp only [List.map_cons, List.nodup_cons] at hnd
      rw [List.find?_cons] at h
      rw [List.find?_cons]
      by_cases hy : y.id = pid
      · rw [beq_iff_eq.mpr hy] at h ⊢
        injection h with h
        subst h
        cases hg : g y with
        | true => simp
        | false =>
            have hnone : ys.find? (fun x => x.id == pid && g x) = none := by
              rw [List.find?_eq_none]
              intro x hx hpx
              simp only [Bool.and_eq_true, beq_iff_eq] at hpx
              have hxin : x.id ∈ ys.map (fun x => x.id) :=
                List.mem_map_of_mem (fun x => x.id) hx
              rw [hpx.1, ← hy] at hxin
              exact hnd.1 hxin
            simp [hnone, hg]
      · rw [beq_eq_false_iff_ne.mpr hy] at h ⊢
        rw [Bool.false_and]
        exact ih hnd.2 h

theorem find?_pk_self (l : List CartItem) (x : CartItem) (hx : x ∈ l)
    (hnd : (l.map (fun i => i.pk)).Nodup) :
    l.find? (fun i => i.pk == x.pk) = some x := by
  induction l with
  | nil => simp at hx
  | cons y ys ih =>
      simp only [List.map_cons, List.nodup_cons] at hnd
      rw [List.find?_cons]
      by_cases hy : y.pk = x.pk
      · rcases List.mem_cons.mp hx with rfl | hx2
        · rw [beq_iff_eq.mpr hy]
        · have hxin : x.pk ∈ ys.map (fun i => i.pk) :=
            List.mem_map_of_mem (fun i => i.pk) hx2
          rw [← hy] at hxin
          exact absurd hxin hnd.1
      · rw [beq_eq_false_iff_ne.mpr hy]
        rcases List.mem_cons.mp hx with rfl | hx2
        · exact absurd rfl hy
        · exact ih hx2 hnd.2

theorem foldr_max_cart_le (l : List Cart) (c : Cart) (hc : c ∈ l) :
    c.id ≤ l.foldr (fun c acc => max c.id acc) 0 := by
  induction l with
  | nil => simp at hc
  | cons y ys ih =>
      rcases List.mem_cons.mp hc with rfl | hc2
      · exact Nat.le_max_left _ _
      · exact Nat.le_trans (ih hc2) (Nat.le_max_right _ _)

theorem mkFreshCartId_gt (db : DB) (c : Cart) (hc : c ∈ db.carts) :
    c.id < mkFreshCartId db :=
  Nat.lt_succ_of_le (foldr_max_cart_le db.carts c hc)

theorem getOrCreateCart_found (db : DB) (u : Nat) (cart : Cart)
    (h : db.carts.find? (fun c => c.userId == u) = some cart) :
    getOrCreateCart db u = (cart, db) := by
  unfold getOrCreateCart
  rw [h]

theorem getOrCreateCart_fresh (db : DB) (u : Nat)
    (h : db.carts.find? (fun c => c.userId == u) = none) :
    getOrCreateCart db u = (⟨mkFreshCartId db, u⟩,
      { db with carts := db.carts ++ [⟨mkFreshCartId db, u⟩] }) := by
  unfold getOrCreateCart
  rw [h]

theorem getOrCreateCart_items (db : DB) (u : Nat) :
    (getOrCreateCart db u).2.items = db.items := by
  unfold getOrCreateCart
  split <;> rfl

theorem getOrCreateCart_products (db : DB) (u : Nat) :
    (getOrCreateCart db u).2.products = db.products := by
  unfold getOrCreateCart
  split <;> rfl

theorem getOrCreateCart_logs (db : DB) (u : Nat) :
    (getOrCreateCart db u).2.logs = db.logs := by
  unfold getOrCreateCart
  split <;> rfl

theorem clean_ok_facts (item : CartItem) (cu : Nat) (product : Product)
    (h : CartItem.clean item cu product = .ok ()) :
    product.is_available = true ∧ cu ≠ product.sellerId ∧
    item.quantity ≤ product.stock ∧
    item.quantity ≤ MAX_QUANTITY_PER_ITEM := by
  unfold CartItem.clean at h
  split at h
  · exact absurd h (by simp)
  · split at h
    · exact absurd h (by simp)
    · split at h
      · exact absurd h (by simp)
      · split at h
        · exact absurd h (by simp)
        · rename_i h1 h2 h3 h4
          refine ⟨?_, h2, Nat.le_of_not_lt h3, Nat.le_of_not_lt h4⟩
          revert h1
          cases product.is_available <;> simp

theorem clean_own_product (item : CartItem) (cu : Nat) (product : Product)
    (hown : product.sellerId = cu) :
    (∃ e, CartItem.clean item cu product = .error e) ∧
    (product.is_available = true →
      CartItem.clean item cu product = .error .ownProduct) := by
  constructor
  · unfold CartItem.clean
    split
    · exact ⟨_, rfl⟩
    · rw [if_pos hown.symm]
      exact ⟨_, rfl⟩
  · intro hav
    unfold CartItem.clean
    rw [if_neg (by simp [hav]), if_pos hown.symm]

theorem saveCartItem_none (db : DB) (item : CartItem) (cu : Nat)
    (product : Product) (saved : CartItem) (db2 : DB)
    (hpk : item.pk = none)
    (hok : saveCartItem db item cu product = .ok (saved, db2)) :
    saved = { item with price_at_addition := product.price, pk := some (mkFreshItemPk db) } ∧
    db2.items = db.items ++ [saved] ∧
    db2.logs = db.logs ++ [⟨saved.cartId, cu, .ADD, some saved.productId,
      .addInfo saved.quantity saved.price_at_addition⟩] ∧
    db2.products = db.products ∧ db2.carts = db.carts ∧
    CartItem.clean { item with price_at_addition := product.price }
      cu product = .ok () := by
  unfold saveCartItem at hok
  simp only [if_pos hpk] at hok
  split at hok
  · exact absurd hok (by simp)
  · rename_i u hclean
    cases u
    split at hok
    · rename_i hpk2
      simp only [Except.ok.injEq, Prod.mk.injEq] at hok
      obtain ⟨rfl, rfl⟩ := hok
      exact ⟨rfl, rfl, rfl, rfl, rfl, hclean⟩
    · rename_i k hpk2
      exact absurd hpk2 (by simp [hpk])

theorem saveCartItem_some (db : DB) (item : CartItem) (cu : Nat)
    (product : Product) (saved : CartItem) (db2 : DB) (k : Nat)
    (hpk : item.pk = some k)
    (hok : saveCartItem db item cu product = .ok (saved, db2)) :
    saved = item ∧
    db2.items = db.items.map (fun i => if i.pk == some k then item else i) ∧
    (∃ t, db2.logs = db.logs ++ t ∧ (∀ e ∈ t, e.action = .UPDATE) ∧
      (∀ oldItem, db.items.find? (fun i => i.pk == some k) = some oldItem →
        oldItem.quantity ≠ item.quantity → t ≠ [])) ∧
    db2.products = db.products ∧ db2.carts = db.carts ∧
    CartItem.clean item cu product = .ok () := by
  unfold saveCartItem at hok
  simp only [if_neg (show ¬(item.pk = none) by simp [hpk])] at hok
  split at hok
  · exact absurd hok (by simp)
  · rename_i u hclean
    cases u
    split at hok
    · rename_i hpk2
      exact absurd hpk2 (by simp [hpk])
    · rename_i k2 hpk2
      rw [hpk] at hpk2
      injection hpk2 with hpk2
      subst hpk2
      split at hok
      · rename_i oldQ hold
        split at hok
        · rename_i hneq
          simp only [Except.ok.injEq, Prod.mk.injEq] at hok
          obtain ⟨rfl, rfl⟩ := hok
          refine ⟨rfl, rfl, ⟨_, rfl, ?_, ?_⟩, rfl, rfl, hclean⟩
          · intro e he
            simp only [List.mem_singleton] at he
            subst he
            rfl
          · intro oldItem hfind hneq2
            simp
        · rename_i hneq
          simp only [Except.ok.injEq, Prod.mk.injEq] at hok
          obtain ⟨rfl, rfl⟩ := hok
          refine ⟨rfl, rfl, ⟨[], by simp, by simp, ?_⟩, rfl, rfl, hclean⟩
          intro oldItem hfind hneq2
          simp only [Option.map_eq_some'] at hold
          obtain ⟨i0, hf0, hq0⟩ := hold
          rw [hfind] at hf0
          injection hf0 with hf0
          subst hf0
          simp only [Decidable.not_not] at hneq
          exact absurd (hq0 ▸ hneq) hneq2
      · rename_i hold
        simp only [Except.ok.injEq, Prod.mk.injEq] at hok
        obtain ⟨rfl, rfl⟩ := hok
        refine ⟨rfl, rfl, ⟨[], by simp, by simp, ?_⟩, rfl, rfl, hclean⟩
        intro oldItem hfind hneq2
        simp only [Option.map_eq_none'] at hold
        rw [hfind] at hold
        exact absurd hold (by simp)

theorem foldl_total_price (l : List CartItem) (a : Int) :
    l.foldl (fun acc it => acc + it.total_price) a
      = a + (l.map CartItem.total_price).sum := by
  induction l generalizing a with
  | nil => simp
  | cons x xs ih =>
      simp only [List.foldl_cons, List.map_cons, List.sum_cons, ih]
      ring

/-- C1: the price snapshot is taken from the product exactly when the
cart item is created and is never changed afterwards — an add-to-cart
either stores a new item whose `price_at_addition` is the product's
current price or keeps every stored snapshot, a quantity update keeps
every stored snapshot, and a product price edit touches no cart item;
`total_price` is `price_at_addition * quantity`; the cart subtotal is
the sum of `total_price` over the cart's items, `0` for an empty cart,
and therefore unchanged by product price edits after addition. -/
theorem price_snapshot_subtotal :
    (∀ db item cu product saved db2, item.pk = none →
      saveCartItem db item cu product = .ok (saved, db2) →
      saved.price_at_addition = product.price ∧
      db2.items = db.items ++ [saved]) ∧
    (∀ db u pid q db2, addToCart db u pid q = .ok db2 →
      ∀ i2 ∈ db2.items,
        (∃ i1 ∈ db.items, i1.pk = i2.pk ∧
          i1.price_at_addition = i2.price_at_addition) ∨
        (∃ product, db.products.find?
            (fun p => p.id == pid && p.is_active && !p.is_deleted)
            = some product ∧
          i2.productId = pid ∧ i2.price_at_addition = product.price)) ∧
    (∀ db u pid q db2, (∀ i ∈ db.items, i.pk ≠ none) →
      updateCartItem db u pid q = .ok db2 →
      ∀ i2 ∈ db2.items, ∃ i1 ∈ db.items, i1.pk = i2.pk ∧
        i1.price_at_addition = i2.price_at_addition) ∧
    (∀ db pid np now, (updateProductPrice db pid np now).items = db.items) ∧
    (∀ it : CartItem, it.total_price = it.price_at_addition * it.quantity) ∧
    (∀ db cid, Cart.subtotal db cid =
      ((db.items.filter (fun i => i.cartId == cid)).map
        CartItem.total_price).sum) ∧
    (∀ db cid, db.items.filter (fun i => i.cartId == cid) = [] →
      Cart.subtotal db cid = 0) ∧
    (∀ db pid np now cid,
      Cart.subtotal (updateProductPrice db pid np now) cid
        = Cart.subtotal db cid) := by
  refine ⟨?_, ?_, ?_, ?_, ?_, ?_, ?_, ?_⟩
  · intro db item cu product saved db2 hpk hok
    obtain ⟨hs, hi, -, -, -, -⟩ :=
      saveCartItem_none db item cu product saved db2 hpk hok
    subst hs
    exact ⟨rfl, hi⟩
  · intro db u pid q db2 hok i2 hi2
    simp only [addToCart] at hok
    split at hok
    · exact absurd hok (by simp)
    · split at hok
      · exact absurd hok (by simp)
      · rename_i product hprod
        rw [getOrCreateCart_products] at hprod
        split at hok
        · rename_i hitem
          split at hok
          · exact absurd hok (by simp)
          · rename_i r hsave
            obtain ⟨sv, d3⟩ := r
            simp only [Except.ok.injEq] at hok
            subst hok
            obtain ⟨hs, hi, -, -, -, -⟩ :=
              saveCartItem_none _ _ _ _ sv d3 rfl hsave
            rw [getOrCreateCart_items] at hi
            rw [hi] at hi2
            rcases List.mem_append.mp hi2 with hold | hnew
            · exact Or.inl ⟨i2, hold, rfl, rfl⟩
            · simp only [List.mem_singleton] at hnew
              subst hnew
              subst hs
              exact Or.inr ⟨product, hprod, rfl, rfl⟩
        · rename_i item hitem
          rw [getOrCreateCart_items] at hitem
          split at hok
          · exact absurd hok (by simp)
          · split at hok
            · exact absurd hok (by simp)
            · split at hok
              · exact absurd hok (by simp)
              · rename_i r hsave
                obtain ⟨sv, d3⟩ := r
                simp only [Except.ok.injEq] at hok
                subst hok
                cases hpk : item.pk with
                | none =>
                    obtain ⟨hs, hi, -, -, -, -⟩ :=
                      saveCartItem_none _ _ _ _ sv d3 (by simp [hpk]) hsave
                    rw [getOrCreateCart_items] at hi
                    rw [hi] at hi2
                    rcases List.mem_append.mp hi2 with hold | hnew
                    · exact Or.inl ⟨i2, hold, rfl, rfl⟩
                    · simp only [List.mem_singleton] at hnew
                      subst hnew
                      subst hs
                      have hpred := List.find?_some hitem
                      simp only [Bool.and_eq_true, beq_iff_eq] at hpred
                      exact Or.inr ⟨product, hprod, hpred.2, rfl⟩
                | some k =>
                    obtain ⟨hs, hi, -, -, -, -⟩ :=
                      saveCartItem_some _ _ _ _ sv d3 k (by simp [hpk]) hsave
                    rw [getOrCreateCart_items] at hi
                    rw [hi] at hi2
                    obtain ⟨i0, hi0, hfi⟩ := List.mem_map.mp hi2
                    by_cases hc : (i0.pk == some k) = true
                    · rw [if_pos hc] at hfi
                      subst hfi
                      refine Or.inl ⟨item,
                        List.mem_of_find?_eq_some hitem, ?_, rfl⟩
                      rfl
                    · rw [if_neg hc] at hfi
                      subst hfi
                      exact Or.inl ⟨i0, hi0, rfl, rfl⟩
  · intro db u pid q db2 hsome hok i2 hi2
    simp only [updateCartItem] at hok
    split at hok
    · exact absurd hok (by simp)
    · split at hok
      · exact absurd hok (by simp)
      · rename_i cart hcart
        split at hok
        · exact absurd hok (by simp)
        · rename_i item hitem
          split at hok
          · exact absurd hok (by simp)
          · rename_i product hprod
            split at hok
            · exact absurd hok (by simp)
            · rename_i r hsave
              obtain ⟨sv, d3⟩ := r
              simp only [Except.ok.injEq] at hok
              subst hok
              cases hpk : item.pk with
              | none =>
                  exact absurd hpk
                    (hsome item (List.mem_of_find?_eq_some hitem))
              | some k =>
                  obtain ⟨hs, hi, -, -, -, -⟩ :=
                    saveCartItem_some _ _ _ _ sv d3 k (by simp [hpk]) hsave
                  simp only at hi2
                  rw [hi] at hi2
                  obtain ⟨i0, hi0, hfi⟩ := List.mem_map.mp hi2
                  by_cases hc : (i0.pk == some k) = true
                  · rw [if_pos hc] at hfi
                    subst hfi
                    exact ⟨item, List.mem_of_find?_eq_some hitem, rfl, rfl⟩
                  · rw [if_neg hc] at hfi
                    subst hfi
                    exact ⟨i0, hi0, rfl, rfl⟩
  · intro db pid np now
    rfl
  · intro it
    rfl
  · intro db cid
    unfold Cart.subtotal
    rw [foldl_total_price]
    simp
  · intro db cid h
    unfold Cart.subtotal
    rw [h]
    rfl
  · intro db pid np now cid
    rfl

def c1Product : Product := ⟨10, 2, 500, 5, 10, true, false, none, 0⟩

def c1DB : DB := ⟨[], [c1Product], [⟨1, 1⟩], [], [], [], []⟩

def c1DB2 : DB := runCart c1DB (addToCart c1DB 1 10 2)

def c1DB3 : DB := runCart c1DB2 (updateCartItem c1DB2 1 10 4)

theorem price_snapshot_subtotal_witness :
    (∀ i2 ∈ c1DB2.items,
      (∃ i1 ∈ c1DB.items, i1.pk = i2.pk ∧
        i1.price_at_addition = i2.price_at_addition) ∨
      (∃ product, c1DB.products.find?
          (fun p => p.id == 10 && p.is_active && !p.is_deleted)
          = some product ∧
        i2.productId = 10 ∧ i2.price_at_addition = product.price)) ∧
    (∀ i2 ∈ c1DB3.items, ∃ i1 ∈ c1DB2.items, i1.pk = i2.pk ∧
      i1.price_at_addition = i2.price_at_addition) ∧
    Cart.subtotal (updateProductPrice c1DB3 10 999 5) 1
      = Cart.subtotal c1DB3 1 :=
  ⟨price_snapshot_subtotal.2.1 c1DB 1 10 2 c1DB2 rfl,
   price_snapshot_subtotal.2.2.1 c1DB2 1 10 4 c1DB3 (by decide) rfl,
   price_snapshot_subtotal.2.2.2.2.2.2.2 c1DB3 10 999 5 1⟩

theorem saveCartItem_error (db : DB) (item : CartItem) (cu : Nat)
    (product : Product) (e : CartError)
    (h : saveCartItem db item cu product = .error e) :
    CartItem.clean (if item.pk = none
      then { item with price_at_addition := product.price } else item)
      cu product = .error e := by
  cases hpk : item.pk with
  | none =>
      rw [if_pos rfl]
      unfold saveCartItem at h
      simp only [if_pos hpk, hpk] at h
      split at h
      · rename_i e2 hcl
        injection h with h
        subst h
        exact hcl
      · exact absurd h (by simp)
  | some k =>
      rw [if_neg (show ¬(some k = none) by simp)]
      unfold saveCartItem at h
      simp only [if_neg (show ¬(item.pk = none) by simp [hpk]), hpk] at h
      split at h
      · rename_i e2 hcl
        injection h with h
        subst h
        exact hcl
      · split at h
        · split at h
          · exact absurd h (by simp)
          · exact absurd h (by simp)
        · exact absurd h (by simp)

theorem clean_stock_error (item : CartItem) (cu : Nat)
    (product : Product) (s : Nat)
    (h : CartItem.clean item cu product = .error (.stockExceeded s)) :
    product.stock < item.quantity := by
  unfold CartItem.clean at h
  split at h
  · exact absurd h (by simp)
  · split at h
    · exact absurd h (by simp)
    · split at h
      · rename_i h3
        exact h3
      · split at h
        · exact absurd h (by simp)
        · exact absurd h (by simp)

theorem validateAddToCart_ok_facts (db : DB) (u pid q : Nat)
    (h : validateAddToCart db u pid q = .ok ()) :
    1 ≤ q ∧ q ≤ MAX_QUANTITY_PER_ITEM ∧
    (∃ product, db.products.find?
      (fun x => x.id == pid && x.is_active && !x.is_deleted)
        = some product ∧ product.is_available = true) ∧
    (∀ p2, db.products.find? (fun x => x.id == pid) = some p2 →
      q ≤ p2.stock ∧ u ≠ p2.sellerId) := by
  unfold validateAddToCart at h
  split at h
  · exact absurd h (by simp)
  · rename_i product hprod
    split at h
    · exact absurd h (by simp)
    · split at h
      · exact absurd h (by simp)
      · split at h
        · exact absurd h (by simp)
        · rename_i hav hq1 hq99
          have hbase : 1 ≤ q ∧ q ≤ MAX_QUANTITY_PER_ITEM ∧
              (∃ pr, db.products.find?
                (fun x => x.id == pid && x.is_active && !x.is_deleted)
                  = some pr ∧ pr.is_available = true) := by
            refine ⟨Nat.le_of_not_lt hq1, Nat.le_of_not_lt hq99,
              product, hprod, ?_⟩
            revert hav
            cases product.is_available <;> simp
          split at h
          · rename_i hid
            exact ⟨hbase.1, hbase.2.1, hbase.2.2, by
              intro p2 hp2
              rw [hid] at hp2
              exact absurd hp2 (by simp)⟩
          · rename_i p2x hid
            split at h
            · exact absurd h (by simp)
            · split at h
              · exact absurd h (by simp)
              · rename_i hstock hown
                refine ⟨hbase.1, hbase.2.1, hbase.2.2, ?_⟩
                intro p2 hp2
                rw [hid] at hp2
                injection hp2 with hp2
                subst hp2
                exact ⟨Nat.le_of_not_lt hstock, hown⟩

theorem validateAddToCart_stock_err (db : DB) (u pid q s : Nat)
    (h : validateAddToCart db u pid q = .error (.stockExceeded s)) :
    ∃ p2, db.products.find? (fun x => x.id == pid) = some p2 ∧
      p2.stock < q := by
  unfold validateAddToCart at h
  split at h
  · exact absurd h (by simp)
  · split at h
    · exact absurd h (by simp)
    · split at h
      · exact absurd h (by simp)
      · split at h
        · exact absurd h (by simp)
        · split at h
          · exact absurd h (by simp)
          · rename_i p2 hid
            split at h
            · rename_i hstock
              exact ⟨p2, hid, hstock⟩
            · split at h
              · exact absurd h (by simp)
              · exact absurd h (by simp)

theorem validateAddToCart_no_stockAdd (db : DB) (u pid q s : Nat) :
    validateAddToCart db u pid q ≠ .error (.stockExceededAdd s) := by
  intro h
  unfold validateAddToCart at h
  split at h
  · exact absurd h (by simp)
  · split at h
    · exact absurd h (by simp)
    · split at h
      · exact absurd h (by simp)
      · split at h
        · exact absurd h (by simp)
        · split at h
          · exact absurd h (by simp)
          · split at h
            · exact absurd h (by simp)
            · split at h
              · exact absurd h (by simp)
              · exact absurd h (by simp)

theorem validateUpdate_stock_err (db : DB) (pid q s : Nat)
    (h : validateUpdateCartItem db pid q = .error (.stockExceeded s)) :
    ∃ p2, db.products.find? (fun x => x.id == pid) = some p2 ∧
      p2.stock < q := by
  unfold validateUpdateCartItem at h
  split at h
  · exact absurd h (by simp)
  · rename_i p2 hid
    split at h
    · exact absurd h (by simp)
    · split at h
      · rename_i hcond
        simp only [Bool.and_eq_true, decide_eq_true_eq] at hcond
        exact ⟨p2, hid, hcond.2⟩
      · exact absurd h (by simp)

theorem validateUpdate_no_stockAdd (db : DB) (pid q s : Nat) :
    validateUpdateCartItem db pid q ≠ .error (.stockExceededAdd s) := by
  intro h
  unfold validateUpdateCartItem at h
  split at h
  · exact absurd h (by simp)
  · split at h
    · exact absurd h (by simp)
    · split at h
      · exact absurd h (by simp)
      · exact absurd h (by simp)

theorem validateAddToCart_maxq (db : DB) (u pid q : Nat)
    (h99 : MAX_QUANTITY_PER_ITEM < q) :
    ∃ e, validateAddToCart db u pid q = .error e := by
  unfold validateAddToCart
  split
  all_goals try exact ⟨_, rfl⟩
  all_goals try (split <;> try exact ⟨_, rfl⟩)
  all_goals try (split <;> try exact ⟨_, rfl⟩)
  all_goals try (split <;> try exact ⟨_, rfl⟩)
  all_goals exact absurd h99 (by assumption)

/-- The two error messages that report a quantity-versus-stock failure
("Only N unit(s) available" and "Cannot add more. Only N unit(s)
available"). -/
def CartError.isStock : CartError → Bool
  | .stockExceeded _ => true
  | .stockExceededAdd _ => true
  | _ => false

theorem find?_of_nodup_id (l : List Product) (pid : Nat) (p : Product)
    (P : Product → Bool)
    (hnd : (l.map (fun x => x.id)).Nodup)
    (hid : l.find? (fun x => x.id == pid) = some p)
    (himp : ∀ x, P x = true → x.id = pid) :
    l.find? P = if P p = true then some p else none := by
  induction l with
  | nil => simp at hid
  | cons y ys ih =>
      simp only [List.map_cons, List.nodup_cons] at hnd
      rw [List.find?_cons] at hid
      rw [List.find?_cons]
      by_cases hy : y.id = pid
      · rw [beq_iff_eq.mpr hy] at hid
        injection hid with hid
        subst hid
        cases hP : P y with
        | true => simp
        | false =>
            have hnone : ys.find? P = none := by
              rw [List.find?_eq_none]
              intro x hx hpx
              have hxin : x.id ∈ ys.map (fun x => x.id) :=
                List.mem_map_of_mem (fun x => x.id) hx
              rw [himp x hpx, ← hy] at hxin
              exact hnd.1 hxin
            simp [hnone]
      · rw [beq_eq_false_iff_ne.mpr hy] at hid
        cases hP : P y with
        | true => exact absurd (himp y hP) hy
        | false => exact ih hnd.2 hid

theorem clean_not_stock (item : CartItem) (cu : Nat) (product : Product)
    (e : CartError)
    (h : CartItem.clean item cu product = .error e)
    (hq : item.quantity ≤ product.stock) : e.isStock = false := by
  unfold CartItem.clean at h
  split at h
  · injection h with h
    subst h
    rfl
  · split at h
    · injection h with h
      subst h
      rfl
    · split at h
      · rename_i h3
        exact absurd h3 (by omega)
      · split at h
        · injection h with h
          subst h
          rfl
        · exact absurd h (by simp)

theorem validate_not_stock (db : DB) (u pid q : Nat) (p : Product)
    (e : CartError)
    (hp : db.products.find? (fun x => x.id == pid) = some p)
    (hq : q ≤ p.stock)
    (h : validateAddToCart db u pid q = .error e) : e.isStock = false := by
  cases e with
  | stockExceeded s =>
      obtain ⟨p2, hid, hlt⟩ := validateAddToCart_stock_err db u pid q s h
      rw [hp] at hid
      injection hid with hid
      subst hid
      exact absurd hlt (by omega)
  | stockExceededAdd s =>
      exact absurd h (validateAddToCart_no_stockAdd db u pid q s)
  | quantityMin => rfl
  | maxQuantity => rfl
  | productNotFound => rfl
  | notAvailable => rfl
  | ownProduct => rfl
  | maxQuantityAdd => rfl
  | cartNotFound => rfl
  | itemNotFound => rfl
  | cartEmpty => rfl

theorem validateUpdate_not_stock (db : DB) (pid q : Nat) (p : Product)
    (e : CartError)
    (hp : db.products.find? (fun x => x.id == pid) = some p)
    (hq : q ≤ p.stock)
    (h : validateUpdateCartItem db pid q = .error e) : e.isStock = false := by
  cases e with
  | stockExceeded s =>
      obtain ⟨p2, hid, hlt⟩ := validateUpdate_stock_err db pid q s h
      rw [hp] at hid
      injection hid with hid
      subst hid
      exact absurd hlt (by omega)
  | stockExceededAdd s =>
      exact absurd h (validateUpdate_no_stockAdd db pid q s)
  | quantityMin => rfl
  | maxQuantity => rfl
  | productNotFound => rfl
  | notAvailable => rfl
  | ownProduct => rfl
  | maxQuantityAdd => rfl
  | cartNotFound => rfl
  | itemNotFound => rfl
  | cartEmpty => rfl

/-- C2: an add-to-cart whose requested quantity exceeds the product's
stock (a first-time add included), a cumulative add beyond the stock on
an existing item, and a quantity update beyond the stock all fail with
a validation error and leave the database (hence the cart item)
unchanged; and when the resulting quantity is within stock, neither
endpoint ever reports a quantity-versus-stock error (it may still fail
for other reasons, such as availability or the per-item maximum). -/
theorem stock_quantity_validation :
    (∀ db u pid q cart item p,
      db.carts.find? (fun c => c.userId == u) = some cart →
      db.items.find? (fun i => i.cartId == cart.id && i.productId == pid)
        = some item →
      db.products.find? (fun x => x.id == pid) = some p →
      (db.products.map (fun x => x.id)).Nodup →
      p.stock < item.quantity + q →
      (∃ e, addToCart db u pid q = .error e) ∧
      runCart db (addToCart db u pid q) = db) ∧
    (∀ db u pid q p,
      db.products.find? (fun x => x.id == pid) = some p →
      p.stock < q →
      (∃ e, updateCartItem db u pid q = .error e) ∧
      runCart db (updateCartItem db u pid q) = db) ∧
    (∀ db u pid q p e,
      db.products.find? (fun x => x.id == pid) = some p →
      (db.products.map (fun x => x.id)).Nodup →
      q ≤ p.stock →
      (∀ cart item, db.carts.find? (fun c => c.userId == u) = some cart →
        db.items.find?
          (fun i => i.cartId == cart.id && i.productId == pid)
          = some item →
        item.quantity + q ≤ p.stock) →
      (∀ i ∈ db.items, ∃ c ∈ db.carts, i.cartId = c.id) →
      addToCart db u pid q = .error e → e.isStock = false) ∧
    (∀ db u pid q p e,
      db.products.find? (fun x => x.id == pid) = some p →
      q ≤ p.stock →
      updateCartItem db u pid q = .error e → e.isStock = false) ∧
    (∀ db u pid q p,
      db.products.find? (fun x => x.id == pid) = some p →
      p.stock < q →
      (∃ e, addToCart db u pid q = .error e) ∧
      runCart db (addToCart db u pid q) = db) := by
  refine ⟨?_, ?_, ?_, ?_, ?_⟩
  · intro db u pid q cart item p hcart hitem hp hnd hover
    have hres : ∃ e, addToCart db u pid q = .error e := by
      cases hv : validateAddToCart db u pid q with
      | error e =>
          refine ⟨e, ?_⟩
          simp only [addToCart, hv]
      | ok u0 =>
          cases u0
          cases hfp : db.products.find?
              (fun x => x.id == pid && x.is_active && !x.is_deleted) with
          | none =>
              refine ⟨.productNotFound, ?_⟩
              simp only [addToCart, hv, getOrCreateCart_found db u cart hcart,
                hfp]
          | some product =>
              have hPp := find?_of_nodup_id db.products pid p
                (fun x => x.id == pid && x.is_active && !x.is_deleted)
                hnd hp (by
                  intro x hx
                  simp only [Bool.and_eq_true, beq_iff_eq] at hx
                  exact hx.1.1)
              rw [hfp] at hPp
              have hprodp : product = p := by
                by_cases hc : (p.id == pid && p.is_active && !p.is_deleted)
                    = true
                · rw [if_pos hc] at hPp
                  exact Option.some.inj hPp
                · rw [if_neg hc] at hPp
                  exact absurd hPp (by simp)
              subst hprodp
              by_cases h99 : MAX_QUANTITY_PER_ITEM < item.quantity + q
              · refine ⟨.maxQuantityAdd, ?_⟩
                simp only [addToCart, hv,
                  getOrCreateCart_found db u cart hcart, hfp, hitem,
                  if_pos h99]
              · refine ⟨.stockExceededAdd product.stock, ?_⟩
                simp only [addToCart, hv,
                  getOrCreateCart_found db u cart hcart, hfp, hitem,
                  if_neg h99, if_pos hover]
    obtain ⟨e, he⟩ := hres
    rw [he]
    exact ⟨⟨e, rfl⟩, rfl⟩
  · intro db u pid q p hp hover
    have h0 : 0 < q := by omega
    have hres : ∃ e, updateCartItem db u pid q = .error e := by
      by_cases h99 : MAX_QUANTITY_PER_ITEM < q
      · refine ⟨.maxQuantity, ?_⟩
        simp only [updateCartItem, validateUpdateCartItem, hp, if_pos h99]
      · have hcond : (decide (0 < q) && decide (p.stock < q)) = true := by
          simp only [Bool.and_eq_true, decide_eq_true_eq]
          exact ⟨h0, hover⟩
        refine ⟨.stockExceeded p.stock, ?_⟩
        simp only [updateCartItem, validateUpdateCartItem, hp,
          if_neg h99, if_pos hcond]
    obtain ⟨e, he⟩ := hres
    rw [he]
    exact ⟨⟨e, rfl⟩, rfl⟩
  · intro db u pid q p e hp hnd hq hcum hcartref hcontra
    simp only [addToCart] at hcontra
    split at hcontra
    · rename_i e2 hv
      injection hcontra with hcontra
      subst hcontra
      exact validate_not_stock db u pid q p e2 hp hq hv
    · cases hcf : db.carts.find? (fun c => c.userId == u) with
      | some cart =>
          rw [getOrCreateCart_found db u cart hcf] at hcontra
          split at hcontra
          · injection hcontra with hcontra
            subst hcontra
            rfl
          · rename_i product hfp
            have hfp2 : db.products.find?
                (fun x => x.id == pid && x.is_active && !x.is_deleted)
                = some product := hfp
            have hPp := find?_of_nodup_id db.products pid p
              (fun x => x.id == pid && x.is_active && !x.is_deleted)
              hnd hp (by
                intro x hx
                simp only [Bool.and_eq_true, beq_iff_eq] at hx
                exact hx.1.1)
            rw [hfp2] at hPp
            have hprodp : product = p := by
              by_cases hc : (p.id == pid && p.is_active && !p.is_deleted)
                  = true
              · rw [if_pos hc] at hPp
                exact Option.some.inj hPp
              · rw [if_neg hc] at hPp
                exact absurd hPp (by simp)
            subst hprodp
            split at hcontra
            · split at hcontra
              · rename_i e2 hserr
                injection hcontra with hcontra
                subst hcontra
                have hcl := saveCartItem_error _ _ _ _ _ hserr
                rw [if_pos rfl] at hcl
                exact clean_not_stock _ _ _ _ hcl hq
              · exact absurd hcontra (by simp)
            · rename_i item hitemf
              have hcum2 := hcum cart item hcf hitemf
              split at hcontra
              · injection hcontra with hcontra
                subst hcontra
                rfl
              · split at hcontra
                · rename_i hlt
                  exact absurd hlt (by omega)
                · split at hcontra
                  · rename_i e2 hserr
                    injection hcontra with hcontra
                    subst hcontra
                    have hcl := saveCartItem_error _ _ _ _ _ hserr
                    apply clean_not_stock _ _ _ _ hcl
                    have hqq : (if ({ item with quantity := item.quantity + q } : CartItem).pk = none then { ({ item with quantity := item.quantity + q } : CartItem) with price_at_addition := product.price } else { item with quantity := item.quantity + q }).quantity = item.quantity + q := by
                      split <;> rfl
                    rw [hqq]
                    omega
                  · exact absurd hcontra (by simp)
      | none =>
          rw [getOrCreateCart_fresh db u hcf] at hcontra
          have hitems_none : db.items.find?
              (fun i => i.cartId == mkFreshCartId db && i.productId == pid)
              = none := by
            rw [List.find?_eq_none]
            intro i hi hpi
            simp only [Bool.and_eq_true, beq_iff_eq] at hpi
            obtain ⟨c, hc, hceq⟩ := hcartref i hi
            have hgt := mkFreshCartId_gt db c hc
            omega
          split at hcontra
          · injection hcontra with hcontra
            subst hcontra
            rfl
          · rename_i product hfp
            split at hcontra
            · split at hcontra
              · rename_i e2 hserr
                injection hcontra with hcontra
                subst hcontra
                have hcl := saveCartItem_error _ _ _ _ _ hserr
                rw [if_pos rfl] at hcl
                have hfp2 : db.products.find?
                    (fun x => x.id == pid && x.is_active && !x.is_deleted)
                    = some product := hfp
                have hPp := find?_of_nodup_id db.products pid p
                  (fun x => x.id == pid && x.is_active && !x.is_deleted)
                  hnd hp (by
                    intro x hx
                    simp only [Bool.and_eq_true, beq_iff_eq] at hx
                    exact hx.1.1)
                rw [hfp2] at hPp
                have hprodp : product = p := by
                  by_cases hc : (p.id == pid && p.is_active &&
                      !p.is_deleted) = true
                  · rw [if_pos hc] at hPp
                    exact Option.some.inj hPp
                  · rw [if_neg hc] at hPp
                    exact absurd hPp (by simp)
                subst hprodp
                exact clean_not_stock _ _ _ _ hcl hq
              · exact absurd hcontra (by simp)
            · rename_i item hitemf
              have hitemf2 : db.items.find?
                  (fun i => i.cartId == mkFreshCartId db &&
                    i.productId == pid) = some item := hitemf
              rw [hitems_none] at hitemf2
              exact absurd hitemf2 (by simp)
  · intro db u pid q p e hp hq hcontra
    simp only [updateCartItem] at hcontra
    split at hcontra
    · rename_i e2 hv
      injection hcontra with hcontra
      subst hcontra
      exact validateUpdate_not_stock db pid q p e2 hp hq hv
    · split at hcontra
      · injection hcontra with hcontra
        subst hcontra
        rfl
      · rename_i cart hcf
        split at hcontra
        · injection hcontra with hcontra
          subst hcontra
          rfl
        · rename_i item hitemf
          split at hcontra
          · injection hcontra with hcontra
            subst hcontra
            rfl
          · rename_i product hprodf
            rw [hp] at hprodf
            injection hprodf with hprodf
            subst hprodf
            split at hcontra
            · rename_i e2 hserr
              injection hcontra with hcontra
              subst hcontra
              have hcl := saveCartItem_error _ _ _ _ _ hserr
              have hqq : ∀ it2 : CartItem,
                  (if ({ item with quantity := q } : CartItem).pk = none
                    then { ({ item with quantity := q } : CartItem) with
                      price_at_addition := p.price }
                    else { item with quantity := q }).quantity = q := by
                intro it2
                split <;> rfl
              apply clean_not_stock _ _ _ _ hcl
              rw [hqq item]
              exact hq
            · exact absurd hcontra (by simp)
  · intro db u pid q p hp hover
    have hres : ∃ e, validateAddToCart db u pid q = .error e := by
      cases hfp : db.products.find?
          (fun x => x.id == pid && x.is_active && !x.is_deleted) with
      | none =>
          refine ⟨.productNotFound, ?_⟩
          unfold validateAddToCart
          rw [hfp]
      | some pr =>
          by_cases ha : (!pr.is_available) = true
          · exact ⟨.notAvailable,
              by simp only [validateAddToCart, hfp, if_pos ha]⟩
          · by_cases h1 : q < 1
            · exact ⟨.quantityMin, by simp only [validateAddToCart, hfp,
                if_neg ha, if_pos h1]⟩
            · by_cases h2 : MAX_QUANTITY_PER_ITEM < q
              · exact ⟨.maxQuantity, by simp only [validateAddToCart, hfp,
                  if_neg ha, if_neg h1, if_pos h2]⟩
              · exact ⟨.stockExceeded p.stock,
                  by simp only [validateAddToCart, hfp, if_neg ha,
                    if_neg h1, if_neg h2, hp, if_pos hover]⟩
    obtain ⟨e, hv⟩ := hres
    have he : addToCart db u pid q = .error e := by
      simp only [addToCart, hv]
    rw [he]
    exact ⟨⟨e, rfl⟩, rfl⟩

def c2Product : Product := ⟨10, 2, 500, 5, 10, true, false, none, 0⟩

def c2Cart : Cart := ⟨1, 1⟩

def c2Item : CartItem := ⟨some 1, 1, 10, 4, 500⟩

def c2DB : DB := ⟨[], [c2Product], [c2Cart], [c2Item], [], [], []⟩

def c2NoItems : DB := ⟨[], [c2Product], [c2Cart], [], [], [], []⟩

theorem stock_quantity_validation_witness :
    ((∃ e, addToCart c2DB 1 10 2 = .error e) ∧
     runCart c2DB (addToCart c2DB 1 10 2) = c2DB) ∧
    ((∃ e, updateCartItem c2DB 1 10 6 = .error e) ∧
     runCart c2DB (updateCartItem c2DB 1 10 6) = c2DB) ∧
    CartError.isStock .ownProduct = false ∧
    CartError.isStock .cartNotFound = false ∧
    ((∃ e, addToCart c2NoItems 1 10 7 = .error e) ∧
     runCart c2NoItems (addToCart c2NoItems 1 10 7) = c2NoItems) :=
  ⟨stock_quantity_validation.1 c2DB 1 10 2 c2Cart c2Item c2Product
      rfl rfl rfl (by decide) (by decide),
   stock_quantity_validation.2.1 c2DB 1 10 6 c2Product rfl (by decide),
   stock_quantity_validation.2.2.1 c2DB 2 10 1 c2Product .ownProduct
      rfl (by decide) (by decide)
      (by
        intro cart item hc hi
        rw [show c2DB.carts.find? (fun c => c.userId == 2) = none
          from rfl] at hc
        exact absurd hc (by simp))
      (by decide) rfl,
   stock_quantity_validation.2.2.2.1 c2DB 3 10 2 c2Product .cartNotFound
      rfl (by decide) rfl,
   stock_quantity_validation.2.2.2.2 c2NoItems 1 10 7 c2Product rfl
      (by decide)⟩

/-- C8: a requested quantity above `MAX_QUANTITY_PER_ITEM = 99` is
rejected by both cart write endpoints, a cumulative add beyond 99 is
rejected with the item unchanged, and every successful cart operation
preserves the invariant that each cart item's quantity is at most 99. -/
theorem max_quantity_limit :
    (∀ db u pid q, MAX_QUANTITY_PER_ITEM < q →
      (∃ e, addToCart db u pid q = .error e) ∧
      runCart db (addToCart db u pid q) = db) ∧
    (∀ db u pid q cart item,
      db.carts.find? (fun c => c.userId == u) = some cart →
      db.items.find? (fun i => i.cartId == cart.id && i.productId == pid)
        = some item →
      MAX_QUANTITY_PER_ITEM < item.quantity + q →
      (∃ e, addToCart db u pid q = .error e) ∧
      runCart db (addToCart db u pid q) = db) ∧
    (∀ db u pid q, MAX_QUANTITY_PER_ITEM < q →
      (∃ e, updateCartItem db u pid q = .error e) ∧
      runCart db (updateCartItem db u pid q) = db) ∧
    (∀ db u pid q db2,
      (∀ i ∈ db.items, i.quantity ≤ MAX_QUANTITY_PER_ITEM) →
      addToCart db u pid q = .ok db2 →
      ∀ i ∈ db2.items, i.quantity ≤ MAX_QUANTITY_PER_ITEM) ∧
    (∀ db u pid q db2,
      (∀ i ∈ db.items, i.quantity ≤ MAX_QUANTITY_PER_ITEM) →
      updateCartItem db u pid q = .ok db2 →
      ∀ i ∈ db2.items, i.quantity ≤ MAX_QUANTITY_PER_ITEM) ∧
    (∀ db u pid db2,
      (∀ i ∈ db.items, i.quantity ≤ MAX_QUANTITY_PER_ITEM) →
      removeFromCart db u pid = .ok db2 →
      ∀ i ∈ db2.items, i.quantity ≤ MAX_QUANTITY_PER_ITEM) ∧
    (∀ db u db2,
      (∀ i ∈ db.items, i.quantity ≤ MAX_QUANTITY_PER_ITEM) →
      clearCart db u = .ok db2 →
      ∀ i ∈ db2.items, i.quantity ≤ MAX_QUANTITY_PER_ITEM) := by
  refine ⟨?_, ?_, ?_, ?_, ?_, ?_, ?_⟩
  · intro db u pid q h99
    have hres : ∃ e, addToCart db u pid q = .error e := by
      obtain ⟨e, hv⟩ := validateAddToCart_maxq db u pid q h99
      exact ⟨e, by simp only [addToCart, hv]⟩
    obtain ⟨e, he⟩ := hres
    rw [he]
    exact ⟨⟨e, rfl⟩, rfl⟩
  · intro db u pid q cart item hcart hitem h99
    have hres : ∃ e, addToCart db u pid q = .error e := by
      cases hv : validateAddToCart db u pid q with
      | error e => exact ⟨e, by simp only [addToCart, hv]⟩
      | ok u0 =>
          cases u0
          cases hfp : db.products.find?
              (fun x => x.id == pid && x.is_active && !x.is_deleted) with
          | none =>
              exact ⟨.productNotFound, by simp only [addToCart, hv,
                getOrCreateCart_found db u cart hcart, hfp]⟩
          | some product =>
              exact ⟨.maxQuantityAdd, by simp only [addToCart, hv,
                getOrCreateCart_found db u cart hcart, hfp, hitem,
                if_pos h99]⟩
    obtain ⟨e, he⟩ := hres
    rw [he]
    exact ⟨⟨e, rfl⟩, rfl⟩
  · intro db u pid q h99
    have hres : ∃ e, validateUpdateCartItem db pid q = .error e := by
      cases hfind : db.products.find? (fun x => x.id == pid) with
      | none =>
          refine ⟨.productNotFound, ?_⟩
          unfold validateUpdateCartItem
          rw [hfind]
      | some p =>
          refine ⟨.maxQuantity, ?_⟩
          simp only [validateUpdateCartItem, hfind, if_pos h99]
    obtain ⟨e, hv⟩ := hres
    have he : updateCartItem db u pid q = .error e := by
      simp only [updateCartItem, hv]
    rw [he]
    exact ⟨⟨e, rfl⟩, rfl⟩
  · intro db u pid q db2 hinv hok i2 hi2
    simp only [addToCart] at hok
    split at hok
    · exact absurd hok (by simp)
    · split at hok
      · exact absurd hok (by simp)
      · rename_i product hprod
        split at hok
        · split at hok
          · exact absurd hok (by simp)
          · rename_i r hsave
            obtain ⟨sv, d3⟩ := r
            simp only [Except.ok.injEq] at hok
            subst hok
            obtain ⟨hs, hi, -, -, -, hcl⟩ :=
              saveCartItem_none _ _ _ _ sv d3 rfl hsave
            rw [getOrCreateCart_items] at hi
            rw [hi] at hi2
            rcases List.mem_append.mp hi2 with hold | hnew
            · exact hinv i2 hold
            · simp only [List.mem_singleton] at hnew
              subst hnew
              subst hs
              exact (clean_ok_facts _ _ _ hcl).2.2.2
        · rename_i item hitem
          rw [getOrCreateCart_items] at hitem
          split at hok
          · exact absurd hok (by simp)
          · split at hok
            · exact absurd hok (by simp)
            · split at hok
              · exact absurd hok (by simp)
              · rename_i r hsave
                obtain ⟨sv, d3⟩ := r
                simp only [Except.ok.injEq] at hok
                subst hok
                cases hpk : item.pk with
                | none =>
                    obtain ⟨hs, hi, -, -, -, hcl⟩ :=
                      saveCartItem_none _ _ _ _ sv d3 (by simp [hpk]) hsave
                    rw [getOrCreateCart_items] at hi
                    rw [hi] at hi2
                    rcases List.mem_append.mp hi2 with hold | hnew
                    · exact hinv i2 hold
                    · simp only [List.mem_singleton] at hnew
                      subst hnew
                      subst hs
                      exact (clean_ok_facts _ _ _ hcl).2.2.2
                | some k =>
                    obtain ⟨hs, hi, -, -, -, hcl⟩ :=
                      saveCartItem_some _ _ _ _ sv d3 k (by simp [hpk]) hsave
                    rw [getOrCreateCart_items] at hi
                    rw [hi] at hi2
                    obtain ⟨i0, hi0, hfi⟩ := List.mem_map.mp hi2
                    by_cases hc : (i0.pk == some k) = true
                    · rw [if_pos hc] at hfi
                      subst hfi
                      exact (clean_ok_facts _ _ _ hcl).2.2.2
                    · rw [if_neg hc] at hfi
                      subst hfi
                      exact hinv i0 hi0
  · intro db u pid q db2 hinv hok i2 hi2
    simp only [updateCartItem] at hok
    split at hok
    · exact absurd hok (by simp)
    · split at hok
      · exact absurd hok (by simp)
      · rename_i cart hcart
        split at hok
        · exact absurd hok (by simp)
        · rename_i item hitem
          split at hok
          · exact absurd hok (by simp)
          · rename_i product hprod
            split at hok
            · exact absurd hok (by simp)
            · rename_i r hsave
              obtain ⟨sv, d3⟩ := r
              simp only [Except.ok.injEq] at hok
              subst hok
              cases hpk : item.pk with
              | none =>
                  obtain ⟨hs, hi, -, -, -, hcl⟩ :=
                    saveCartItem_none _ _ _ _ sv d3 (by simp [hpk]) hsave
                  simp only at hi2
                  rw [hi] at hi2
                  rcases List.mem_append.mp hi2 with hold | hnew
                  · exact hinv i2 hold
                  · simp only [List.mem_singleton] at hnew
                    subst hnew
                    subst hs
                    exact (clean_ok_facts _ _ _ hcl).2.2.2
              | some k =>
                  obtain ⟨hs, hi, -, -, -, hcl⟩ :=
                    saveCartItem_some _ _ _ _ sv d3 k (by simp [hpk]) hsave
                  simp only at hi2
                  rw [hi] at hi2
                  obtain ⟨i0, hi0, hfi⟩ := List.mem_map.mp hi2
                  by_cases hc : (i0.pk == some k) = true
                  · rw [if_pos hc] at hfi
                    subst hfi
                    exact (clean_ok_facts _ _ _ hcl).2.2.2
                  · rw [if_neg hc] at hfi
                    subst hfi
                    exact hinv i0 hi0
  · intro db u pid db2 hinv hok i2 hi2
    simp only [removeFromCart] at hok
    split at hok
    · exact absurd hok (by simp)
    · split at hok
      · exact absurd hok (by simp)
      · rename_i cart hcart
        split at hok
        · exact absurd hok (by simp)
        · rename_i item hitem
          simp only [Except.ok.injEq] at hok
          subst hok
          simp only at hi2
          exact hinv i2 (List.mem_of_mem_filter hi2)
  · intro db u db2 hinv hok i2 hi2
    simp only [clearCart] at hok
    split at hok
    · exact absurd hok (by simp)
    · rename_i cart hcart
      split at hok
      · exact absurd hok (by simp)
      · simp only [Except.ok.injEq] at hok
        subst hok
        simp only at hi2
        exact hinv i2 (List.mem_of_mem_filter hi2)

def c8Add : DB := runCart c2DB (addToCart c2DB 1 10 1)

def c8Upd : DB := runCart c2DB (updateCartItem c2DB 1 10 3)

def c8Rem : DB := runCart c2DB (removeFromCart c2DB 1 10)

def c8Clr : DB := runCart c2DB (clearCart c2DB 1)

theorem max_quantity_limit_witness :
    ((∃ e, addToCart c2DB 1 10 150 = .error e) ∧
     runCart c2DB (addToCart c2DB 1 10 150) = c2DB) ∧
    ((∃ e, addToCart c2DB 1 10 96 = .error e) ∧
     runCart c2DB (addToCart c2DB 1 10 96) = c2DB) ∧
    ((∃ e, updateCartItem c2DB 1 10 150 = .error e) ∧
     runCart c2DB (updateCartItem c2DB 1 10 150) = c2DB) ∧
    (∀ i ∈ c8Add.items, i.quantity ≤ MAX_QUANTITY_PER_ITEM) ∧
    (∀ i ∈ c8Upd.items, i.quantity ≤ MAX_QUANTITY_PER_ITEM) ∧
    (∀ i ∈ c8Rem.items, i.quantity ≤ MAX_QUANTITY_PER_ITEM) ∧
    (∀ i ∈ c8Clr.items, i.quantity ≤ MAX_QUANTITY_PER_ITEM) :=
  ⟨max_quantity_limit.1 c2DB 1 10 150 (by decide),
   max_quantity_limit.2.1 c2DB 1 10 96 c2Cart c2Item rfl rfl (by decide),
   max_quantity_limit.2.2.1 c2DB 1 10 150 (by decide),
   max_quantity_limit.2.2.2.1 c2DB 1 10 1 c8Add (by decide) rfl,
   max_quantity_limit.2.2.2.2.1 c2DB 1 10 3 c8Upd (by decide) rfl,
   max_quantity_limit.2.2.2.2.2.1 c2DB 1 10 c8Rem (by decide) rfl,
   max_quantity_limit.2.2.2.2.2.2 c2DB 1 c8Clr (by decide) rfl⟩

/-- C10: adding a product to its own seller's cart always fails and
leaves the database (hence the cart) unchanged; when the product is
available and the quantity passes the other field checks the reported
error is exactly the serializer's "You cannot add your own products to
cart"; and `CartItem.clean` likewise rejects an own-product item, with
that same error whenever the product is available. -/
theorem own_product_rejected :
    (∀ db u pid q p,
      db.products.find? (fun x => x.id == pid) = some p →
      p.sellerId = u →
      (∃ e, addToCart db u pid q = .error e) ∧
      runCart db (addToCart db u pid q) = db) ∧
    (∀ db u pid q p,
      db.products.find? (fun x => x.id == pid) = some p →
      p.sellerId = u →
      (db.products.map (fun x => x.id)).Nodup →
      p.is_available = true → 1 ≤ q → q ≤ MAX_QUANTITY_PER_ITEM →
      q ≤ p.stock →
      addToCart db u pid q = .error .ownProduct) ∧
    (∀ item cu product, product.sellerId = cu →
      (∃ e, CartItem.clean item cu product = .error e) ∧
      (product.is_available = true →
        CartItem.clean item cu product = .error .ownProduct)) := by
  refine ⟨?_, ?_, ?_⟩
  · intro db u pid q p hp hseller
    have hres : ∃ e, validateAddToCart db u pid q = .error e := by
      cases hfp : db.products.find?
          (fun x => x.id == pid && x.is_active && !x.is_deleted) with
      | none =>
          refine ⟨.productNotFound, ?_⟩
          unfold validateAddToCart
          rw [hfp]
      | some pr =>
          by_cases ha : (!pr.is_available) = true
          · exact ⟨.notAvailable,
              by simp only [validateAddToCart, hfp, if_pos ha]⟩
          · by_cases h1 : q < 1
            · exact ⟨.quantityMin, by simp only [validateAddToCart, hfp,
                if_neg ha, if_pos h1]⟩
            · by_cases h2 : MAX_QUANTITY_PER_ITEM < q
              · exact ⟨.maxQuantity, by simp only [validateAddToCart, hfp,
                  if_neg ha, if_neg h1, if_pos h2]⟩
              · by_cases h3 : p.stock < q
                · exact ⟨.stockExceeded p.stock,
                    by simp only [validateAddToCart, hfp, if_neg ha,
                      if_neg h1, if_neg h2, hp, if_pos h3]⟩
                · exact ⟨.ownProduct,
                    by simp only [validateAddToCart, hfp, if_neg ha,
                      if_neg h1, if_neg h2, hp, if_neg h3,
                      if_pos hseller.symm]⟩
    obtain ⟨e, hv⟩ := hres
    have he : addToCart db u pid q = .error e := by
      simp only [addToCart, hv]
    rw [he]
    exact ⟨⟨e, rfl⟩, rfl⟩
  · intro db u pid q p hp hseller hnd hav h1 h2 h3
    have havx := hav
    simp only [Product.is_available, Bool.and_eq_true,
      decide_eq_true_eq] at havx
    have hflags : db.products.find?
        (fun x => x.id == pid && x.is_active && !x.is_deleted)
        = some p := by
      have hPp := find?_of_nodup_id db.products pid p
        (fun x => x.id == pid && x.is_active && !x.is_deleted)
        hnd hp (by
          intro x hx
          simp only [Bool.and_eq_true, beq_iff_eq] at hx
          exact hx.1.1)
      have hP : (p.id == pid && p.is_active && !p.is_deleted) = true := by
        have hid := List.find?_some hp
        simp only [Bool.and_eq_true]
        exact ⟨⟨by simpa using hid, havx.1.1⟩, havx.1.2⟩
      rw [if_pos (show (fun x => x.id == pid && x.is_active &&
        !x.is_deleted) p = true from hP)] at hPp
      exact hPp
    have hv : validateAddToCart db u pid q = .error .ownProduct := by
      simp only [validateAddToCart, hflags,
        if_neg (show ¬((!p.is_available) = true) by rw [hav]; simp),
        if_neg (show ¬(q < 1) by omega),
        if_neg (show ¬(MAX_QUANTITY_PER_ITEM < q) by omega), hp,
        if_neg (show ¬(p.stock < q) by omega),
        if_pos hseller.symm]
    simp only [addToCart, hv]
  · intro item cu product hseller
    exact clean_own_product item cu product hseller

def c10DB : DB := ⟨[], [c2Product], [⟨2, 2⟩], [], [], [], []⟩

theorem own_product_rejected_witness :
    ((∃ e, addToCart c10DB 2 10 1 = .error e) ∧
     runCart c10DB (addToCart c10DB 2 10 1) = c10DB) ∧
    addToCart c10DB 2 10 1 = .error .ownProduct ∧
    ((∃ e, CartItem.clean c2Item 2 c2Product = .error e) ∧
     (c2Product.is_available = true →
      CartItem.clean c2Item 2 c2Product = .error .ownProduct)) :=
  ⟨own_product_rejected.1 c10DB 2 10 1 c2Product rfl rfl,
   own_product_rejected.2.1 c10DB 2 10 1 c2Product rfl rfl (by decide)
     (by decide) (by decide) (by decide) (by decide),
   own_product_rejected.2.2 c2Item 2 c2Product rfl⟩

/-- C7: the cart audit log is append-only and every successful cart
mutation appends at least one row with the matching action: a
first-time add appends an ADD row (whether the user's cart already
exists or is created by `get_or_create` on this request), an add to an
existing item appends only UPDATE rows and at least one, a quantity
update appends an UPDATE row, a removal appends a REMOVE row, and
clearing the cart appends one REMOVE row per deleted item plus a CLEAR
row; in every case the new log equals the old log followed by the new
rows, so no existing row is ever modified or deleted. -/
theorem audit_log_append_only :
    (∀ db u pid q db2 cart,
      db.carts.find? (fun c => c.userId == u) = some cart →
      db.items.find? (fun i => i.cartId == cart.id && i.productId == pid)
        = none →
      addToCart db u pid q = .ok db2 →
      ∃ entry, db2.logs = db.logs ++ [entry] ∧ entry.action = .ADD) ∧
    (∀ db u pid q db2 cart item,
      db.carts.find? (fun c => c.userId == u) = some cart →
      db.items.find? (fun i => i.cartId == cart.id && i.productId == pid)
        = some item →
      (db.items.map (fun i => i.pk)).Nodup →
      (∀ i ∈ db.items, i.pk ≠ none) →
      addToCart db u pid q = .ok db2 →
      ∃ t, db2.logs = db.logs ++ t ∧ t ≠ [] ∧
        ∀ e ∈ t, e.action = .UPDATE) ∧
    (∀ db u pid q db2, updateCartItem db u pid q = .ok db2 →
      ∃ t, db2.logs = db.logs ++ t ∧ ∃ e ∈ t, e.action = .UPDATE) ∧
    (∀ db u pid db2, removeFromCart db u pid = .ok db2 →
      ∃ entry, db2.logs = db.logs ++ [entry] ∧ entry.action = .REMOVE) ∧
    (∀ db u db2, clearCart db u = .ok db2 →
      ∃ t, db2.logs = db.logs ++ t ∧ (∃ e ∈ t, e.action = .CLEAR) ∧
        ∀ e ∈ t, e.action = .REMOVE ∨ e.action = .CLEAR) ∧
    (∀ db u pid q db2,
      db.carts.find? (fun c => c.userId == u) = none →
      (∀ i ∈ db.items, ∃ c ∈ db.carts, i.cartId = c.id) →
      addToCart db u pid q = .ok db2 →
      ∃ entry, db2.logs = db.logs ++ [entry] ∧ entry.action = .ADD) := by
  refine ⟨?_, ?_, ?_, ?_, ?_, ?_⟩
  · intro db u pid q db2 cart hcart hnone hok
    simp only [addToCart] at hok
    split at hok
    · exact absurd hok (by simp)
    · rw [getOrCreateCart_found db u cart hcart] at hok
      split at hok
      · exact absurd hok (by simp)
      · rename_i product hfp
        split at hok
        · split at hok
          · exact absurd hok (by simp)
          · rename_i r hsave
            obtain ⟨sv, d3⟩ := r
            simp only [Except.ok.injEq] at hok
            subst hok
            obtain ⟨hs, -, hlogs, -, -, -⟩ :=
              saveCartItem_none _ _ _ _ sv d3 rfl hsave
            exact ⟨_, hlogs, rfl⟩
        · rename_i item hitemf
          rw [hnone] at hitemf
          exact absurd hitemf (by simp)
  · intro db u pid q db2 cart item hcart hitem hnd hsome hok
    simp only [addToCart] at hok
    split at hok
    · exact absurd hok (by simp)
    · rename_i u0 hv
      cases u0
      rw [getOrCreateCart_found db u cart hcart] at hok
      split at hok
      · exact absurd hok (by simp)
      · rename_i product hfp
        split at hok
        · rename_i hitemf
          rw [hitem] at hitemf
          exact absurd hitemf (by simp)
        · rename_i item2 hitemf
          rw [hitem] at hitemf
          injection hitemf with hitemf
          subst hitemf
          split at hok
          · exact absurd hok (by simp)
          · split at hok
            · exact absurd hok (by simp)
            · split at hok
              · exact absurd hok (by simp)
              · rename_i r hsave
                obtain ⟨sv, d3⟩ := r
                simp only [Except.ok.injEq] at hok
                subst hok
                cases hpk : item.pk with
                | none =>
                    exact absurd hpk
                      (hsome item (List.mem_of_find?_eq_some hitem))
                | some k =>
                    obtain ⟨hs, -, ⟨t, hlogs, hupd, hne⟩, -, -, -⟩ :=
                      saveCartItem_some _ _ _ _ sv d3 k (by simp [hpk])
                        hsave
                    refine ⟨t, hlogs, ?_, hupd⟩
                    have h1q := (validateAddToCart_ok_facts db u pid q hv).1
                    have hfind : db.items.find?
                        (fun i => i.pk == some k) = some item := by
                      have := find?_pk_self db.items item
                        (List.mem_of_find?_eq_some hitem) hnd
                      rw [hpk] at this
                      exact this
                    exact hne item hfind (by
                      simp only
                      omega)
  · intro db u pid q db2 hok
    simp only [updateCartItem] at hok
    split at hok
    · exact absurd hok (by simp)
    · split at hok
      · exact absurd hok (by simp)
      · rename_i cart hcart
        split at hok
        · exact absurd hok (by simp)
        · rename_i item hitem
          split at hok
          · exact absurd hok (by simp)
          · rename_i product hprod
            split at hok
            · exact absurd hok (by simp)
            · rename_i r hsave
              obtain ⟨sv, d3⟩ := r
              simp only [Except.ok.injEq] at hok
              subst hok
              cases hpk : item.pk with
              | none =>
                  obtain ⟨hs, -, hlogs, -, -, -⟩ :=
                    saveCartItem_none _ _ _ _ sv d3 (by simp [hpk]) hsave
                  refine ⟨[⟨sv.cartId, u, .ADD, some sv.productId,
                    .addInfo sv.quantity sv.price_at_addition⟩,
                    ⟨cart.id, u, .UPDATE, some pid, .viewUpdate q⟩], ?_, ?_⟩
                  · simp only
                    rw [hlogs]
                    simp
                  · exact ⟨⟨cart.id, u, .UPDATE, some pid, .viewUpdate q⟩,
                      by simp, rfl⟩
              | some k =>
                  obtain ⟨hs, -, ⟨t, hlogs, hupd, -⟩, -, -, -⟩ :=
                    saveCartItem_some _ _ _ _ sv d3 k (by simp [hpk]) hsave
                  refine ⟨t ++ [⟨cart.id, u, .UPDATE, some pid,
                    .viewUpdate q⟩], ?_, ?_⟩
                  · simp only
                    rw [hlogs]
                    simp
                  · exact ⟨⟨cart.id, u, .UPDATE, some pid, .viewUpdate q⟩,
                      by simp, rfl⟩
  · intro db u pid db2 hok
    simp only [removeFromCart] at hok
    split at hok
    · exact absurd hok (by simp)
    · split at hok
      · exact absurd hok (by simp)
      · rename_i cart hcart
        split at hok
        · exact absurd hok (by simp)
        · rename_i item hitem
          simp only [Except.ok.injEq] at hok
          subst hok
          exact ⟨_, rfl, rfl⟩
  · intro db u db2 hok
    simp only [clearCart] at hok
    split at hok
    · exact absurd hok (by simp)
    · rename_i cart hcart
      split at hok
      · exact absurd hok (by simp)
      · simp only [Except.ok.injEq] at hok
        subst hok
        refine ⟨((db.items.filter (fun i => i.cartId == cart.id)).map
          (fun it => ⟨cart.id, u, .REMOVE, some it.productId,
            .removeInfo it.quantity it.price_at_addition⟩)) ++
          [⟨cart.id, u, .CLEAR, none,
            .clearInfo (db.items.filter
              (fun i => i.cartId == cart.id)).length⟩], ?_, ?_, ?_⟩
        · simp
        · refine ⟨⟨cart.id, u, .CLEAR, none,
            .clearInfo (db.items.filter
              (fun i => i.cartId == cart.id)).length⟩, by simp, rfl⟩
        · intro e he
          rcases List.mem_append.mp he with hrem | hclr
          · obtain ⟨it, -, rfl⟩ := List.mem_map.mp hrem
            exact Or.inl rfl
          · simp only [List.mem_singleton] at hclr
            subst hclr
            exact Or.inr rfl
  · intro db u pid q db2 hcf hcartref hok
    simp only [addToCart] at hok
    split at hok
    · exact absurd hok (by simp)
    · rw [getOrCreateCart_fresh db u hcf] at hok
      have hitems_none : db.items.find?
          (fun i => i.cartId == mkFreshCartId db && i.productId == pid)
          = none := by
        rw [List.find?_eq_none]
        intro i hi hpi
        simp only [Bool.and_eq_true, beq_iff_eq] at hpi
        obtain ⟨c, hc, hceq⟩ := hcartref i hi
        have hgt := mkFreshCartId_gt db c hc
        omega
      split at hok
      · exact absurd hok (by simp)
      · rename_i product hfp
        split at hok
        · split at hok
          · exact absurd hok (by simp)
          · rename_i r hsave
            obtain ⟨sv, d3⟩ := r
            simp only [Except.ok.injEq] at hok
            subst hok
            obtain ⟨hs, -, hlogs, -, -, -⟩ :=
              saveCartItem_none _ _ _ _ sv d3 rfl hsave
            exact ⟨_, hlogs, rfl⟩
        · rename_i item hitemf
          have hitemf2 : db.items.find?
              (fun i => i.cartId == mkFreshCartId db &&
                i.productId == pid) = some item := hitemf
          rw [hitems_none] at hitemf2
          exact absurd hitemf2 (by simp)

def c7DB : DB := ⟨[], [c2Product], [c2Cart], [], [], [], []⟩

def c7Add : DB := runCart c7DB (addToCart c7DB 1 10 2)

def c7FreshDB : DB := ⟨[], [c2Product], [], [], [], [], []⟩

def c7FreshAdd : DB := runCart c7FreshDB (addToCart c7FreshDB 1 10 2)

theorem audit_log_append_only_witness :
    (∃ entry, c7Add.logs = c7DB.logs ++ [entry] ∧
      entry.action = .ADD) ∧
    (∃ t, c8Add.logs = c2DB.logs ++ t ∧ t ≠ [] ∧
      ∀ e ∈ t, e.action = .UPDATE) ∧
    (∃ t, c8Upd.logs = c2DB.logs ++ t ∧ ∃ e ∈ t, e.action = .UPDATE) ∧
    (∃ entry, c8Rem.logs = c2DB.logs ++ [entry] ∧
      entry.action = .REMOVE) ∧
    (∃ t, c8Clr.logs = c2DB.logs ++ t ∧ (∃ e ∈ t, e.action = .CLEAR) ∧
      ∀ e ∈ t, e.action = .REMOVE ∨ e.action = .CLEAR) ∧
    (∃ entry, c7FreshAdd.logs = c7FreshDB.logs ++ [entry] ∧
      entry.action = .ADD) :=
  ⟨audit_log_append_only.1 c7DB 1 10 2 c7Add c2Cart rfl rfl rfl,
   audit_log_append_only.2.1 c2DB 1 10 1 c8Add c2Cart c2Item rfl rfl
     (by decide) (by decide) rfl,
   audit_log_append_only.2.2.1 c2DB 1 10 3 c8Upd rfl,
   audit_log_append_only.2.2.2.1 c2DB 1 10 c8Rem rfl,
   audit_log_append_only.2.2.2.2.1 c2DB 1 c8Clr rfl,
   audit_log_append_only.2.2.2.2.2 c7FreshDB 1 10 2 c7FreshAdd rfl
     (by decide) rfl⟩

end Medinn
